import Mathlib

/-!
Verification development for the yapt path tracer.

The Rust sources are shallowly embedded here:
* real-valued geometry (`coord.rs`, `smooth_dielectric.rs`, `refractive.rs`)
  is modelled over `ℝ`, with `Real.sqrt` standing for `f32::sqrt`;
* the integrator (`integrator.rs`) is modelled over an exact-rational
  carrier `Fl` that carries an explicit NaN flag so that the NaN checks of
  the source are meaningful; transcendental sub-computations of the scene
  (triangle intersection, BVH traversal, texture fetches, BSDF sampling)
  are oracle fields of a `Scene` record, each documented with the source
  function it abstracts;
* the film (`film.rs`) and the work dispatcher (`work_handler.rs`) are
  modelled over `ℚ` and `ℕ`.
-/

set_option maxHeartbeats 1000000

namespace Yapt

/-- 3-vector over an arbitrary scalar carrier (mirrors `utility::Vec3`). -/
structure V3 (α : Type) where
  x : α
  y : α
  z : α
deriving DecidableEq, Repr

/-- 2-vector over an arbitrary scalar carrier (mirrors `utility::Vec2`). -/
structure V2 (α : Type) where
  x : α
  y : α
deriving DecidableEq, Repr

/-- `ScatterStatus` bit flags (`material/mod.rs` lines 26-33):
NORMAL = 0, EXIT = 1, DIRAC_DELTA = 2, BTDF = 4. -/
structure SStat where
  v : ℕ
deriving DecidableEq, Repr

namespace SStat

def normal : SStat := ⟨0⟩

def exitS : SStat := ⟨1⟩

def diracDelta : SStat := ⟨2⟩

/-- `ScatterStatus::contains`: `(*self | other) == *self`. -/
def contains (a b : SStat) : Bool := (a.v ||| b.v) == a.v

end SStat

/-- `MaterialProperties` flags (`material/mod.rs` lines 48-54). -/
structure MProps where
  v : ℕ
deriving DecidableEq, Repr

namespace MProps

def normal : MProps := ⟨0⟩

def onlyDiracDelta : MProps := ⟨1⟩

/-- `MaterialProperties::contains`. -/
def contains (a b : MProps) : Bool := (a.v ||| b.v) == a.v

end MProps

/-- Intersection record (`main.rs` lines 124-132), generic in the scalar
carrier so that both the `ℝ` model and the NaN-tracking model reuse it. -/
structure Sect (α : Type) where
  t : α
  uv : V2 α
  pos : V3 α
  nor : V3 α
  out : Bool
  mat : ℕ
  id : ℕ
deriving DecidableEq, Repr

/-- Ray record (`utility::Ray`): origin, direction, cached reciprocal
direction. -/
structure RayT (α : Type) where
  origin : V3 α
  dir : V3 α
  invDir : V3 α
deriving DecidableEq, Repr

/-! ## Real-valued vector algebra (for `coord.rs` and the dielectrics) -/

noncomputable section RealModel

namespace R3

def add (a b : V3 ℝ) : V3 ℝ := ⟨a.x + b.x, a.y + b.y, a.z + b.z⟩

def sub (a b : V3 ℝ) : V3 ℝ := ⟨a.x - b.x, a.y - b.y, a.z - b.z⟩

def neg (a : V3 ℝ) : V3 ℝ := ⟨-a.x, -a.y, -a.z⟩

def smul (c : ℝ) (a : V3 ℝ) : V3 ℝ := ⟨c * a.x, c * a.y, c * a.z⟩

def sdiv (a : V3 ℝ) (c : ℝ) : V3 ℝ := ⟨a.x / c, a.y / c, a.z / c⟩

/-- `Vec3::dot`. -/
def dot (a b : V3 ℝ) : ℝ := a.x * b.x + a.y * b.y + a.z * b.z

/-- `Vec3::cross`. -/
def cross (a b : V3 ℝ) : V3 ℝ :=
  ⟨a.y * b.z - a.z * b.y, a.z * b.x - a.x * b.z, a.x * b.y - a.y * b.x⟩

/-- `Vec3::mag_sq`. -/
def magSq (a : V3 ℝ) : ℝ := dot a a

/-- `Vec3::mag`. -/
noncomputable def mag (a : V3 ℝ) : ℝ := Real.sqrt (dot a a)

/-- `Vec3::normalised`: `self / self.mag()`. -/
noncomputable def normalised (a : V3 ℝ) : V3 ℝ := sdiv a (mag a)

/-- `Vec3::reflected`: `2 * self.dot(normal) * normal - self`
(`self` points away from the surface). -/
def reflected (a normal : V3 ℝ) : V3 ℝ := sub (smul (2 * dot a normal) normal) a

end R3

/-- `Ray::new`: normalises the direction and caches the componentwise
reciprocal. -/
noncomputable def RayR.new (origin dir : V3 ℝ) : RayT ℝ :=
  let d := R3.normalised dir
  ⟨origin, d, ⟨1 / d.x, 1 / d.y, 1 / d.z⟩⟩

/-! ## Coordinate frame (`coord.rs` lines 16-43) -/

/-- `Coordinate`: an orthonormal frame given by three basis vectors. -/
structure Coordinate where
  x : V3 ℝ
  y : V3 ℝ
  z : V3 ℝ

/-- `Coordinate::new_from_z`: numerically stable tangent choice switching
on `|z.x| > |z.y|`, with `y = x × z`. -/
noncomputable def Coordinate.newFromZ (z : V3 ℝ) : Coordinate :=
  let x : V3 ℝ :=
    if |z.x| > |z.y| then
      R3.sdiv ⟨-z.z, 0, z.x⟩ (Real.sqrt (z.x * z.x + z.z * z.z))
    else
      R3.sdiv ⟨0, z.z, -z.y⟩ (Real.sqrt (z.y * z.y + z.z * z.z))
  ⟨x, R3.cross x z, z⟩

/-- `Coordinate::local_to_global`. -/
def Coordinate.localToGlobal (c : Coordinate) (v : V3 ℝ) : V3 ℝ :=
  ⟨v.x * c.x.x + v.y * c.y.x + v.z * c.z.x,
   v.x * c.x.y + v.y * c.y.y + v.z * c.z.y,
   v.x * c.x.z + v.y * c.y.z + v.z * c.z.z⟩

/-- `Coordinate::global_to_local` (the transpose of `local_to_global`). -/
def Coordinate.globalToLocal (c : Coordinate) (v : V3 ℝ) : V3 ℝ :=
  ⟨v.x * c.x.x + v.y * c.x.y + v.z * c.x.z,
   v.x * c.y.x + v.y * c.y.y + v.z * c.y.z,
   v.x * c.z.x + v.y * c.z.y + v.z * c.z.z⟩

/-! ## Fresnel and the smooth dielectric scatters
(`yapt_core/src/smooth_dielectric.rs`, `yapt/src/material/refractive.rs`) -/

/-- `fresnel_dielectric` (`material/mod.rs` lines 255-274): exact dielectric
Fresnel reflectance; returns 1 on total internal reflection. -/
def fresnelDielectric (eta1 eta2 : ℝ) (nor wo : V3 ℝ) : ℝ :=
  let eta := eta1 / eta2
  let cosi := R3.dot wo nor
  let sintSq := eta ^ 2 * (1 - cosi ^ 2)
  if sintSq ≥ 1 then 1
  else
    let cost := Real.sqrt (1 - sintSq)
    let rs := ((eta1 * cosi - eta2 * cost) / (eta1 * cosi + eta2 * cost)) ^ 2
    let rp := ((eta1 * cost - eta2 * cosi) / (eta1 * cost + eta2 * cosi)) ^ 2
    0.5 * (rs + rp)

/-- `SmoothDielectric::scatter` (`yapt_core/src/smooth_dielectric.rs` lines
13-49).  `u0` is the value drawn by `rng.random()`; the literal `1/100000`
is the source's `0.00001` self-intersection offset.  `eta1 = 1.0`,
`eta2 = ior`, swapped when `sect.out` is false. -/
def smoothDielectricScatter (ior : ℝ) (sect : Sect ℝ) (ray : RayT ℝ) (u0 : ℝ) :
    RayT ℝ × SStat :=
  let wo := R3.neg ray.dir
  let e : ℝ × ℝ := if ¬ sect.out then (ior, 1) else (1, ior)
  let eta1 := e.1
  let eta2 := e.2
  let eta := eta1 / eta2
  let cosi := R3.dot wo sect.nor
  let r := fresnelDielectric eta1 eta2 sect.nor wo
  if r ≥ u0 then
    let wi := R3.reflected wo sect.nor
    let origin := R3.add sect.pos (R3.smul (1 / 100000) sect.nor)
    (RayR.new origin wi, SStat.diracDelta)
  else
    let perp := R3.smul eta (R3.sub (R3.smul cosi sect.nor) wo)
    let para := R3.smul (-(Real.sqrt |1 - R3.magSq perp|)) sect.nor
    let wi := R3.add perp para
    let origin := R3.sub sect.pos (R3.smul (1 / 100000) sect.nor)
    (RayR.new origin wi, SStat.diracDelta)

/-- `Refractive::scatter` (`yapt/src/material/refractive.rs` lines 14-63).
Same structure as `SmoothDielectric::scatter` but the total-internal-
reflection test is inlined and the Fresnel-vs-sample comparison is the
STRICT `r > rng.gen()`. -/
def refractiveScatter (ior : ℝ) (sect : Sect ℝ) (ray : RayT ℝ) (u0 : ℝ) :
    RayT ℝ × SStat :=
  let wo := R3.neg ray.dir
  let reflRay : RayT ℝ × SStat :=
    (RayR.new (R3.add sect.pos (R3.smul (1 / 100000) sect.nor))
      (R3.reflected wo sect.nor), SStat.diracDelta)
  let e : ℝ × ℝ := if ¬ sect.out then (ior, 1) else (1, ior)
  let eta1 := e.1
  let eta2 := e.2
  let eta := eta1 / eta2
  let cosi := R3.dot wo sect.nor
  let sintSq := eta ^ 2 * (1 - cosi ^ 2)
  if sintSq ≥ 1 then reflRay
  else
    let cost := Real.sqrt (1 - sintSq)
    let rs := ((eta1 * cosi - eta2 * cost) / (eta1 * cosi + eta2 * cost)) ^ 2
    let rp := ((eta1 * cost - eta2 * cosi) / (eta1 * cost + eta2 * cosi)) ^ 2
    let r := 0.5 * (rs + rp)
    if r > u0 then reflRay
    else
      let perp := R3.smul eta (R3.add ray.dir (R3.smul cosi sect.nor))
      let para := R3.smul (-(Real.sqrt |1 - R3.magSq perp|)) sect.nor
      let wi := R3.add perp para
      (RayR.new (R3.sub sect.pos (R3.smul (1 / 100000) sect.nor)) wi,
        SStat.diracDelta)

/-- The mirror-reflection branch output, written from the spec's words:
offset the origin by the outward normal, reflect `wo` about the normal. -/
def specReflectRay (sect : Sect ℝ) (wo : V3 ℝ) : RayT ℝ :=
  RayR.new (R3.add sect.pos (R3.smul (1 / 100000) sect.nor))
    (R3.reflected wo sect.nor)

/-- The Snell-refraction branch output, written from the spec's words with
explicit `eta1`/`eta2`: perpendicular part `η (cos θᵢ n − wo)`, parallel
part `−√|1 − |perp|²| n`, origin offset inward. -/
def specRefractRay (eta1 eta2 : ℝ) (sect : Sect ℝ) (wo : V3 ℝ) : RayT ℝ :=
  let eta := eta1 / eta2
  let cosi := R3.dot wo sect.nor
  let perp := R3.smul eta (R3.sub (R3.smul cosi sect.nor) wo)
  let para := R3.smul (-(Real.sqrt |1 - R3.magSq perp|)) sect.nor
  RayR.new (R3.sub sect.pos (R3.smul (1 / 100000) sect.nor)) (R3.add perp para)

end RealModel

/-! ## Exact-rational carrier with a NaN flag

`Fl` models an `f32` value as an exact rational plus an explicit NaN flag.
Arithmetic is exact (no rounding) and NaN-propagating; comparisons are
false when either operand is NaN, as in IEEE 754.  Division by zero is
mapped to NaN (this conflates IEEE infinities with NaN; none of the
properties settled below depends on a nonzero-by-zero quotient). -/

structure Fl where
  nan : Bool
  val : ℚ
deriving DecidableEq, Repr

namespace Fl

def ofRat (q : ℚ) : Fl := ⟨false, q⟩

def ofNat (n : ℕ) : Fl := ⟨false, (n : ℚ)⟩

def zero : Fl := ⟨false, 0⟩

def one : Fl := ⟨false, 1⟩

def nanF : Fl := ⟨true, 0⟩

def add (a b : Fl) : Fl := if a.nan || b.nan then nanF else ⟨false, a.val + b.val⟩

def sub (a b : Fl) : Fl := if a.nan || b.nan then nanF else ⟨false, a.val - b.val⟩

def mul (a b : Fl) : Fl := if a.nan || b.nan then nanF else ⟨false, a.val * b.val⟩

def div (a b : Fl) : Fl :=
  if a.nan || b.nan || b.val == 0 then nanF else ⟨false, a.val / b.val⟩

def neg (a : Fl) : Fl := if a.nan then nanF else ⟨false, -a.val⟩

/-- `powi`: integer power; NaN-propagating. -/
def powi (a : Fl) (n : ℕ) : Fl := if a.nan then nanF else ⟨false, a.val ^ n⟩

/-- `a < b`: false when either side is NaN (IEEE comparison). -/
def lt (a b : Fl) : Bool := !a.nan && !b.nan && decide (a.val < b.val)

/-- `a > b`. -/
def gt (a b : Fl) : Bool := lt b a

/-- `a == b` on `f32`: false when either side is NaN. -/
def beq (a b : Fl) : Bool := !a.nan && !b.nan && decide (a.val = b.val)

/-- `f32::max`: ignores a NaN operand, as the Rust library function does. -/
def fmax (a b : Fl) : Fl :=
  if a.nan then b else if b.nan then a else ⟨false, max a.val b.val⟩

/-- An `f32 as usize` cast: truncation, saturating at zero from below,
NaN to zero. -/
def castUsize (a : Fl) : ℕ := if a.nan then 0 else (⌊a.val⌋).toNat

end Fl

/-- The `f32` constant `FRAC_1_PI` (the nearest binary32 to `1/π`),
which appears in the Lambertian and Glossy pdf/bxdf formulas. -/
def fracPi : Fl := ⟨false, (10680707 : ℚ) / 33554432⟩

/-! ### Componentwise vector operations over `Fl` -/

namespace F3

def addV (a b : V3 Fl) : V3 Fl := ⟨Fl.add a.x b.x, Fl.add a.y b.y, Fl.add a.z b.z⟩

def mulV (a b : V3 Fl) : V3 Fl := ⟨Fl.mul a.x b.x, Fl.mul a.y b.y, Fl.mul a.z b.z⟩

def negV (a : V3 Fl) : V3 Fl := ⟨Fl.neg a.x, Fl.neg a.y, Fl.neg a.z⟩

/-- scalar * vector. -/
def smulV (c : Fl) (a : V3 Fl) : V3 Fl := ⟨Fl.mul c a.x, Fl.mul c a.y, Fl.mul c a.z⟩

/-- vector / scalar (componentwise, as `impl Div<f32> for Vec3`). -/
def divVS (a : V3 Fl) (c : Fl) : V3 Fl := ⟨Fl.div a.x c, Fl.div a.y c, Fl.div a.z c⟩

/-- scalar - vector (componentwise, as `impl Sub<Vec3> for f32`). -/
def subSV (c : Fl) (a : V3 Fl) : V3 Fl := ⟨Fl.sub c a.x, Fl.sub c a.y, Fl.sub c a.z⟩

/-- vector / vector (componentwise). -/
def divVV (a b : V3 Fl) : V3 Fl := ⟨Fl.div a.x b.x, Fl.div a.y b.y, Fl.div a.z b.z⟩

def dotF (a b : V3 Fl) : Fl :=
  Fl.add (Fl.add (Fl.mul a.x b.x) (Fl.mul a.y b.y)) (Fl.mul a.z b.z)

/-- `Vec3::contains_nan`. -/
def containsNan (a : V3 Fl) : Bool := a.x.nan || a.y.nan || a.z.nan

/-- `Vec3::component_max`: `self.x.max(self.y.max(self.z))`. -/
def componentMax (a : V3 Fl) : Fl := Fl.fmax a.x (Fl.fmax a.y a.z)

def zeroV : V3 Fl := ⟨Fl.zero, Fl.zero, Fl.zero⟩

def oneV : V3 Fl := ⟨Fl.one, Fl.one, Fl.one⟩

/-- `Vec3::X = (1, 0, 0)`, the value Naive returns on a NaN accumulator. -/
def xV : V3 Fl := ⟨Fl.one, Fl.zero, Fl.zero⟩

/-- `Vec3::new(0.0, 1.0, 0.0)`, the value Naive returns on a NaN
throughput. -/
def greenV : V3 Fl := ⟨Fl.zero, Fl.one, Fl.zero⟩

end F3

/-! ### Intersections over `Fl` (`main.rs` lines 134-156) -/

/-- `Intersection::NONE`. -/
def SectF.noneS : Sect Fl :=
  ⟨⟨false, -1⟩, ⟨Fl.zero, Fl.zero⟩, F3.zeroV, F3.zeroV, false, 0, 0⟩

/-- `Intersection::is_none`: `self.t == -1.0`. -/
def Sect.isNoneF (s : Sect Fl) : Bool := Fl.beq s.t ⟨false, -1⟩

/-- `Intersection::min`: replace `self` by `other` when `self` is none or
`other.t < self.t && other.t > 0.0`. -/
def Sect.minF (self other : Sect Fl) : Sect Fl :=
  if self.isNoneF || (Fl.lt other.t self.t && Fl.gt other.t Fl.zero) then other
  else self

/-! ### Materials (`material/mod.rs`)

The `Mat` variants carry the per-variant data that the integrator-level
claims depend on.  Glossy carries its constructor-computed `eta_sq` and
`ri_average` constants as data. -/

inductive Mat where
  | matte (albedo : ℕ)
  | light (irradiance : V3 Fl)
  | metallic (roughness f0 : ℕ)
  | glossy (etaSq riAvg : Fl) (albedo : ℕ)
  | refractive (ior : Fl)
  | roughRefractive (roughness : ℕ) (ior : Fl)
  | reflective (f0 : ℕ)
  | invisible
deriving DecidableEq, Repr

/-- `if let Mat::Light(_)`. -/
def Mat.isLight : Mat → Bool
  | .light _ => true
  | _ => false

/-- `Mat::properties` (`material/mod.rs` lines 123-128). -/
def Mat.props : Mat → MProps
  | .refractive _ | .reflective _ => MProps.onlyDiracDelta
  | _ => MProps.normal

/-- `Mat::le` (`material/mod.rs` lines 140-151). -/
def Mat.le : Mat → V3 Fl
  | .light irr => irr
  | _ => F3.zeroV

/-- The scene record.  Fields marked "oracle" abstract source functions
whose bodies use square roots or trigonometry and therefore have no exact
rational embedding; each oracle is a pure function of the same inputs as
the source function (with the rng stream position threaded through where
the source takes `&mut rng`).  All other behaviour of the scene is defined
structurally below. -/
structure Scene where
  /-- `MATERIALS`: material of each index. -/
  mats : ℕ → Mat
  /-- oracle for `Bvh::traverse`: the lazy sequence of contiguous
  `[start, stop)` triangle index ranges for a ray. -/
  traverse : RayT Fl → List (ℕ × ℕ)
  /-- oracle for `Tri::intersect` of triangle `i` (the watertight
  intersector, including the alpha-test rng use). -/
  triSect : ℕ → RayT Fl → ℕ → Sect Fl × ℕ
  /-- oracle for `Tri::sample_ray`: sampled light ray and its emitted
  radiance. -/
  triSampleRay : ℕ → Sect Fl → ℕ → (RayT Fl × V3 Fl) × ℕ
  /-- oracle for `Tri::pdf`: area-to-solid-angle pdf. -/
  triPdf : ℕ → Sect Fl → RayT Fl → Fl
  /-- oracle for `EnvMap::sample_dir`. -/
  envSample : V3 Fl → V3 Fl
  /-- oracle for `Texture::uv_value`. -/
  texValue : ℕ → V2 Fl → V3 Fl
  /-- `SAMPLABLE`: the static list of light-triangle indices. -/
  samplables : List ℕ
  /-- oracle for the sampled outgoing ray of a scatter (`Lambertian::sample`,
  `RoughConductor::sample`, VNDF sampling, dielectric branches): the
  direction construction uses sqrt/trigonometry. -/
  scatterRay : Sect Fl → RayT Fl → ℕ → RayT Fl × ℕ
  /-- oracle for `fresnel_dielectric(1.0, ior, sect.nor, w)` as used by the
  Glossy material. -/
  glossyFresnel : Sect Fl → V3 Fl → Fl
  /-- oracle for `RoughConductor::pdf` (in local space). -/
  metallicPdf : Sect Fl → V3 Fl → V3 Fl → Fl
  /-- oracle for `RoughConductor::eval`. -/
  metallicEval : Sect Fl → V3 Fl → V3 Fl → V3 Fl
  /-- oracle for `RoughConductor::bxdf_cos`. -/
  metallicBxdf : Sect Fl → V3 Fl → V3 Fl → V3 Fl
  /-- oracle for `RoughDielectric::pdf`. -/
  roughPdf : Sect Fl → V3 Fl → V3 Fl → Fl
  /-- oracle for `RoughDielectric::eval`. -/
  roughEval : Sect Fl → V3 Fl → V3 Fl → V3 Fl
  /-- oracle for `RoughDielectric::bxdf_cos`. -/
  roughBxdf : Sect Fl → V3 Fl → V3 Fl → V3 Fl

/-! ### Material contract (`material/mod.rs` lines 81-199)

The `unreachable!()` arms of the source are modelled by `none`; an
`Option`-result of `none` aborts the embedded integrator run with the
corresponding `PanicKind`.

`requires_local_space`/`to_local_space` transform `wo`/`wi` before the
Metallic and RoughRefractive arms; since those arms are oracles of
`(sect, wo, wi)`, the transform is absorbed into the oracle. -/

/-- `Mat::scatter` (`material/mod.rs` lines 106-122 plus the per-material
scatter bodies): the per-variant `ScatterStatus` is structural; the sampled
ray is the `scatterRay` oracle.  Statuses per the sources: Lambertian and
RoughConductor and RoughDielectric always NORMAL, Light EXIT, Glossy
NORMAL or DIRAC_DELTA by the Fresnel-vs-sample draw, SmoothDielectric and
SmoothConductor always DIRAC_DELTA, Invisible `unreachable!()`. -/
def Mat.scatterE (s : Scene) (m : Mat) (sect : Sect Fl) (ray : RayT Fl)
    (u : ℕ → Fl) (k : ℕ) : Option ((RayT Fl × SStat) × ℕ) :=
  match m with
  | .matte _ =>
    let r := s.scatterRay sect ray k
    some ((r.1, SStat.normal), r.2)
  | .light _ => some ((ray, SStat.exitS), k)
  | .invisible => none
  | .metallic _ _ =>
    let r := s.scatterRay sect ray k
    some ((r.1, SStat.normal), r.2)
  | .glossy _ _ _ =>
    let d := u k
    let r := s.scatterRay sect ray (k + 1)
    if Fl.gt d (s.glossyFresnel sect (F3.negV ray.dir)) then
      some ((r.1, SStat.normal), r.2)
    else
      some ((r.1, SStat.diracDelta), r.2)
  | .refractive _ =>
    let r := s.scatterRay sect ray k
    some ((r.1, SStat.diracDelta), r.2)
  | .roughRefractive _ _ =>
    let r := s.scatterRay sect ray k
    some ((r.1, SStat.normal), r.2)
  | .reflective _ =>
    let r := s.scatterRay sect ray k
    some ((r.1, SStat.diracDelta), r.2)

/-- `Lambertian::pdf` (`material/mod.rs` line 228):
`outgoing.dot(normal).max(0.0) * FRAC_1_PI`. -/
def lambertianPdf (outgoing normal : V3 Fl) : Fl :=
  Fl.mul (Fl.fmax (F3.dotF outgoing normal) Fl.zero) fracPi

/-- `Mat::spdf` (`material/mod.rs` lines 152-167); the Glossy arm is
`SmoothDielectricLambertian::pdf`, with its Fresnel factor an oracle. -/
def Mat.spdf (s : Scene) (m : Mat) (sect : Sect Fl) (wo wi : V3 Fl) :
    Option Fl :=
  match m with
  | .matte _ => some (lambertianPdf wi sect.nor)
  | .light _ => some Fl.zero
  | .metallic _ _ => some (s.metallicPdf sect wo wi)
  | .roughRefractive _ _ => some (s.roughPdf sect wo wi)
  | .glossy _ _ _ =>
    let fi := s.glossyFresnel sect wo
    some (Fl.mul (Fl.mul (Fl.sub Fl.one fi)
      (Fl.fmax (F3.dotF wi sect.nor) Fl.zero)) fracPi)
  | .invisible | .refractive _ | .reflective _ => none

/-- `Mat::bxdf_cos` (`material/mod.rs` lines 169-182); the Glossy arm is
`SmoothDielectricLambertian::bxdf_cos`. -/
def Mat.bxdfCos (s : Scene) (m : Mat) (sect : Sect Fl) (wo wi : V3 Fl) :
    Option (V3 Fl) :=
  match m with
  | .matte a =>
    some (F3.smulV (Fl.mul (Fl.fmax (F3.dotF wi sect.nor) Fl.zero) fracPi)
      (s.texValue a sect.uv))
  | .light _ | .invisible | .refractive _ | .reflective _ => none
  | .metallic _ _ => some (s.metallicBxdf sect wo wi)
  | .roughRefractive _ _ => some (s.roughBxdf sect wo wi)
  | .glossy etaSq riAvg albedo =>
    let fi := s.glossyFresnel sect wo
    let fo := s.glossyFresnel sect wi
    let a := s.texValue albedo sect.uv
    some (F3.divVV
      (F3.smulV (Fl.mul (Fl.mul (Fl.mul (Fl.mul etaSq (Fl.sub Fl.one fi)) fracPi)
        (Fl.sub Fl.one fo)) (Fl.fmax (F3.dotF wi sect.nor) Fl.zero)) a)
      (F3.subSV Fl.one (F3.smulV riAvg a)))

/-- `Mat::eval` (`material/mod.rs` lines 83-105); the Glossy arm is
`SmoothDielectricLambertian::eval`, the Reflective arm is
`SmoothConductor::eval` (Schlick Fresnel at `wo.dot(sect.nor)`). -/
def Mat.evalE (s : Scene) (m : Mat) (sect : Sect Fl) (wo wi : V3 Fl)
    (status : SStat) : Option (V3 Fl) :=
  match m with
  | .matte a => some (s.texValue a sect.uv)
  | .glossy etaSq riAvg albedo =>
    if SStat.contains status SStat.diracDelta then some F3.oneV
    else
      let fo := s.glossyFresnel sect wi
      let a := s.texValue albedo sect.uv
      some (F3.divVV (F3.smulV (Fl.mul etaSq (Fl.sub Fl.one fo)) a)
        (F3.subSV Fl.one (F3.smulV riAvg a)))
  | .light _ | .invisible => none
  | .metallic _ _ => some (s.metallicEval sect wo wi)
  | .refractive _ => some F3.oneV
  | .roughRefractive _ _ => some (s.roughEval sect wo wi)
  | .reflective f0 =>
    let ior := s.texValue f0 sect.uv
    let cosv := F3.dotF wo sect.nor
    some (F3.addV ior
      (F3.smulV (Fl.powi (Fl.sub Fl.one cosv) 5) (F3.subSV Fl.one ior)))

/-! ### Scene intersection queries (`integrator.rs` lines 191-226) -/

/-- Flatten the BVH traversal output: `for range in bvh.traverse(ray) for
i in range` visits exactly this index list in order. -/
def flattenRanges (rs : List (ℕ × ℕ)) : List ℕ :=
  rs.foldr (fun p acc => List.range' p.1 (p.2 - p.1) ++ acc) []

/-- `get_intersection` (`integrator.rs` lines 192-204): fold `Intersection::min`
over every traversed triangle's intersection, stamping the triangle id. -/
def getSect (s : Scene) (ray : RayT Fl) (k : ℕ) : Sect Fl × ℕ :=
  (flattenRanges (s.traverse ray)).foldl
    (fun acc i =>
      let r := s.triSect i ray acc.2
      (Sect.minF acc.1 { r.1 with id := i }, r.2))
    (SectF.noneS, k)

/-- The loop of `intersect_idx` (`integrator.rs` lines 214-224): walk the
traversed indices, skip the target index, and return the sentinel as soon
as some other triangle has `t > 0.0 && t < sect.t`. -/
def intersectIdxGo (s : Scene) (ray : RayT Fl) (idx : ℕ) (sect : Sect Fl) :
    List ℕ → ℕ → Sect Fl × ℕ
  | [], k => (sect, k)
  | i :: rest, k =>
    if i = idx then intersectIdxGo s ray idx sect rest k
    else
      let r := s.triSect i ray k
      if Fl.gt r.1.t Fl.zero && Fl.lt r.1.t sect.t then (SectF.noneS, r.2)
      else intersectIdxGo s ray idx sect rest r.2

/-- `intersect_idx` (`integrator.rs` lines 205-226). -/
def intersectIdx (s : Scene) (ray : RayT Fl) (idx : ℕ) (k : ℕ) :
    Sect Fl × ℕ :=
  let r := s.triSect idx ray k
  if Sect.isNoneF r.1 then r
  else intersectIdxGo s ray idx r.1 (flattenRanges (s.traverse ray)) r.2

/-- Written from the spec's words: "any other triangle whose t ∈
(0, target_t)" among the traversed indices blocks the query.  Unlike the
source loop this recursion has no early exit: it asks whether SOME other
traversed triangle blocks, threading the rng stream position exactly as
the loop does. -/
def specBlocked (s : Scene) (ray : RayT Fl) (idx : ℕ) (targetT : Fl) :
    List ℕ → ℕ → Bool
  | [], _ => false
  | i :: rest, k =>
    if i = idx then specBlocked s ray idx targetT rest k
    else
      let r := s.triSect i ray k
      (Fl.gt r.1.t Fl.zero && Fl.lt r.1.t targetT)
        || specBlocked s ray idx targetT rest r.2

/-! ### The integrators (`integrator.rs`) -/

/-- `const MAX_DEPTH: u64 = 50`. -/
def maxDepth : ℕ := 50

/-- `const RUSSIAN_ROULETTE_THRESHOLD: u64 = 15`. -/
def rouletteThreshold : ℕ := 15

/-- The `unreachable!()` / panicking control paths of an integrator run. -/
inductive PanicKind where
  /-- `Mat::scatter` (via `requires_local_space`) on `Invisible`. -/
  | scatterInvisible
  /-- the `unreachable!()` at `integrator.rs` line 139 (EXIT inside the
  NEE loop). -/
  | exitInLoop
  /-- `Mat::eval` on `Light` or `Invisible`. -/
  | evalPanic
  /-- `Mat::spdf` on `Invisible`, `Refractive` or `Reflective`. -/
  | spdfPanic
  /-- `Mat::bxdf_cos` on `Light`, `Invisible`, `Refractive` or
  `Reflective`. -/
  | bxdfPanic
deriving DecidableEq, Repr

/-- Result of an integrator call: the radiance/ray-count pair the source
returns, instrumented with whether `log::warn!` fired and with the number
of executed bounce-loop iterations. -/
structure IntResult where
  rgb : V3 Fl
  count : ℕ
  warned : Bool
  iters : ℕ
deriving DecidableEq, Repr

/-- `power_heuristic` (`integrator.rs` lines 228-233). -/
def powerHeuristic (pdfA pdfB : Fl) : Fl :=
  let aSq := Fl.powi pdfA 2
  Fl.div aSq (Fl.add aSq (Fl.powi pdfB 2))

/-- The tail of `Naive::rgb` (`integrator.rs` lines 53-57): warn and
return `(Vec3::X, 0)` when the accumulator contains NaN, else return
`(rgb, depth)`. -/
def naiveFinish (rgb : V3 Fl) (depth : ℕ) : Except PanicKind IntResult :=
  if F3.containsNan rgb then .ok ⟨F3.xV, 0, true, depth⟩
  else .ok ⟨rgb, depth, false, depth⟩

/-- The bounce loop of `Naive::rgb` (`integrator.rs` lines 17-52);
`fuel` counts the remaining iterations permitted by `depth < MAX_DEPTH`. -/
def naiveGo (s : Scene) (u : ℕ → Fl) :
    ℕ → ℕ → RayT Fl → V3 Fl → V3 Fl → ℕ → Except PanicKind IntResult
  | 0, depth, _, _, rgb, _ => naiveFinish rgb depth
  | fuel + 1, depth, ray, tp, rgb, k =>
    let depth1 := depth + 1
    let r0 := getSect s ray k
    let sect := r0.1
    let k1 := r0.2
    if Sect.isNoneF sect then
      naiveFinish (F3.addV rgb (F3.mulV tp (s.envSample ray.dir))) depth1
    else
      let mat := s.mats sect.mat
      let wo := F3.negV ray.dir
      let rgb1 := F3.addV rgb (F3.mulV (Mat.le mat) tp)
      match Mat.scatterE s mat sect ray u k1 with
      | none => .error .scatterInvisible
      | some ((ray2, status), k2) =>
        if SStat.contains status SStat.exitS then naiveFinish rgb1 depth1
        else
          match Mat.evalE s mat sect wo ray2.dir status with
          | none => .error .evalPanic
          | some ev =>
            let tp1 := F3.mulV tp ev
            if F3.containsNan tp1 then .ok ⟨F3.greenV, depth1, false, depth1⟩
            else if decide (depth1 > rouletteThreshold) then
              let d := u k2
              let p := F3.componentMax tp1
              if Fl.gt d p then naiveFinish rgb1 depth1
              else naiveGo s u fuel depth1 ray2 (F3.divVS tp1 p) rgb1 (k2 + 1)
            else naiveGo s u fuel depth1 ray2 tp1 rgb1 k2

/-- `Naive::rgb` (`integrator.rs` lines 10-58). -/
def naiveRgb (s : Scene) (u : ℕ → Fl) (ray : RayT Fl) (k : ℕ) :
    Except PanicKind IntResult :=
  naiveGo s u maxDepth 0 ray F3.oneV F3.zeroV k

/-- The light-sampling contribution of one NEE iteration
(`integrator.rs` lines 114-131): skipped when the light ray is occluded or
the material is purely Dirac; `Mat::spdf`/`Mat::bxdf_cos` panics surface
as errors. -/
def lightSampleStep (s : Scene) (mat : Mat) (sect : Sect Fl) (wo tp rgb : V3 Fl)
    (inv : Fl) (lightIdx : ℕ) (lightRay : RayT Fl) (lightLe : V3 Fl)
    (lightSect : Sect Fl) : Except PanicKind (V3 Fl) :=
  if !Sect.isNoneF lightSect
      && !MProps.contains (Mat.props mat) MProps.onlyDiracDelta then
    let lightPdf := Fl.mul (s.triPdf lightIdx lightSect lightRay) inv
    match Mat.spdf s mat sect wo lightRay.dir with
    | none => .error .spdfPanic
    | some lightBsdfPdf =>
      if !Fl.beq lightBsdfPdf Fl.zero && !Fl.beq lightPdf Fl.zero then
        match Mat.bxdfCos s mat sect wo lightRay.dir with
        | none => .error .bxdfPanic
        | some bx =>
          .ok (F3.addV rgb (F3.divVS
            (F3.mulV (F3.mulV
              (F3.smulV (powerHeuristic lightPdf lightBsdfPdf) tp) bx) lightLe)
            lightPdf))
      else .ok rgb
  else .ok rgb

/-- The MIS weighting of the BSDF-sampled hit (`integrator.rs` lines
153-161): when the new hit is samplable and the scatter was not Dirac,
weight the new emission by the power heuristic, else add it unweighted. -/
def bsdfWeightStep (s : Scene) (samplable : List ℕ) (mat : Mat)
    (sect newSect : Sect Fl) (wo : V3 Fl) (ray2 : RayT Fl) (status : SStat)
    (tp rgb : V3 Fl) (inv : Fl) : Except PanicKind (V3 Fl) :=
  let newMat := s.mats newSect.mat
  if samplable.contains newSect.id
      && !SStat.contains status SStat.diracDelta then
    match Mat.spdf s mat sect wo ray2.dir with
    | none => .error .spdfPanic
    | some bsdfPdf =>
      let bsdfLightPdf := Fl.mul (s.triPdf newSect.id newSect ray2) inv
      .ok (F3.addV rgb (F3.mulV
        (F3.smulV (powerHeuristic bsdfPdf bsdfLightPdf) tp) (Mat.le newMat)))
  else .ok (F3.addV rgb (F3.mulV tp (Mat.le newMat)))

/-- The tail of `NEEMIS::rgb` (`integrator.rs` lines 183-188): warn and
return `(Vec3::ZERO, 0)` on a NaN accumulator, else `(rgb, ray_count)`. -/
def neemisFinish (rgb : V3 Fl) (rayCount : ℕ) (iters : ℕ) :
    Except PanicKind IntResult :=
  if F3.containsNan rgb then .ok ⟨F3.zeroV, 0, true, iters⟩
  else .ok ⟨rgb, rayCount, false, iters⟩

/-- The `for depth in 1..MAX_DEPTH` loop of `NEEMIS::rgb`
(`integrator.rs` lines 99-181); `fuel = MAX_DEPTH - depth` iterations
remain.  `rng.random_range(0.0..len)` is modelled as `len * draw` with the
drawn stream value, then cast by `as usize`. -/
def neemisGo (s : Scene) (u : ℕ → Fl) (samplable : List ℕ) (inv : Fl) :
    ℕ → ℕ → RayT Fl → Sect Fl → V3 Fl → V3 Fl → V3 Fl → ℕ → ℕ →
    Except PanicKind IntResult
  | 0, depth, _, _, _, _, rgb, rayCount, _ =>
    neemisFinish rgb rayCount (depth - 1)
  | fuel + 1, depth, ray, sect, wo, tp, rgb, rayCount, k =>
    let mat := s.mats sect.mat
    let d := u k
    let lightIdx0 := Fl.castUsize (Fl.mul d (Fl.ofNat samplable.length))
    let lightIdx := s.samplables.getD lightIdx0 0
    let r1 := s.triSampleRay lightIdx sect (k + 1)
    let lightRay := r1.1.1
    let lightLe := r1.1.2
    let rayCount1 := rayCount + 1
    let r2 := intersectIdx s lightRay lightIdx r1.2
    let lightSect := r2.1
    let k3 := r2.2
    match lightSampleStep s mat sect wo tp rgb inv lightIdx lightRay lightLe
        lightSect with
    | .error e => .error e
    | .ok rgb1 =>
      match Mat.scatterE s mat sect ray u k3 with
      | none => .error .scatterInvisible
      | some ((ray2, status), k4) =>
        if SStat.contains status SStat.exitS then .error .exitInLoop
        else
          match Mat.evalE s mat sect wo ray2.dir status with
          | none => .error .evalPanic
          | some ev =>
            let tp1 := F3.mulV tp ev
            let rayCount2 := rayCount1 + 1
            let r3 := getSect s ray2 k4
            let newSect := r3.1
            let k5 := r3.2
            if Sect.isNoneF newSect then
              neemisFinish
                (F3.addV rgb1 (F3.mulV tp1 (s.envSample ray2.dir)))
                rayCount2 depth
            else
              match bsdfWeightStep s samplable mat sect newSect wo ray2 status
                  tp1 rgb1 inv with
              | .error e => .error e
              | .ok rgb2 =>
                let newMat := s.mats newSect.mat
                if Mat.isLight newMat then neemisFinish rgb2 rayCount2 depth
                else
                  let wo2 := F3.negV ray2.dir
                  if decide (depth > rouletteThreshold) then
                    let d2 := u k5
                    let p := F3.componentMax tp1
                    if Fl.gt d2 p then neemisFinish rgb2 rayCount2 depth
                    else
                      neemisGo s u samplable inv fuel (depth + 1) ray2 newSect
                        wo2 (F3.divVS tp1 p) rgb2 rayCount2 (k5 + 1)
                  else
                    neemisGo s u samplable inv fuel (depth + 1) ray2 newSect
                      wo2 tp1 rgb2 rayCount2 k5

/-- `NEEMIS::rgb` (`integrator.rs` lines 65-189): empty samplable set
delegates to `Naive::rgb`; the first hit records emission directly (no
NEE/MIS for camera rays); then the bounce loop runs. -/
def neemisRgb (s : Scene) (u : ℕ → Fl) (ray : RayT Fl) (k : ℕ)
    (samplable : List ℕ) : Except PanicKind IntResult :=
  if samplable.isEmpty then naiveRgb s u ray k
  else
    let inv := Fl.div Fl.one (Fl.ofNat samplable.length)
    let r0 := getSect s ray k
    let sect := r0.1
    let k1 := r0.2
    if Sect.isNoneF sect then .ok ⟨s.envSample ray.dir, 1, false, 0⟩
    else
      let mat := s.mats sect.mat
      let rgb := Mat.le mat
      if Mat.isLight mat then .ok ⟨rgb, 1, false, 0⟩
      else
        neemisGo s u samplable inv (maxDepth - 1) 1 ray sect
          (F3.negV ray.dir) F3.oneV rgb 1 k1

/-! ## Film (`src/src/film.rs` lines 188-209)

Modelled over exact `ℚ`; the canvas is a list of RGB triples.  The
`assert!(uv[0] <= 1.0 && uv[1] <= 1.0)` and an out-of-bounds canvas index
are modelled by `none`. -/

/-- A splat: UV coordinate plus RGB contribution. -/
structure SplatQ where
  uv : V2 ℚ
  rgb : V3 ℚ
deriving DecidableEq, Repr

def q3Add (a b : V3 ℚ) : V3 ℚ := ⟨a.x + b.x, a.y + b.y, a.z + b.z⟩

/-- `Film::uv_to_idx` (`film.rs` lines 202-209): assert both components
are at most one, truncate `u·W` and `v·H` (the `as usize` cast: toward
zero, saturating at zero), clamp the row-major index to `W·H - 1`. -/
def uvToIdx (width height : ℕ) (uv : V2 ℚ) : Option ℕ :=
  if uv.x ≤ 1 ∧ uv.y ≤ 1 then
    let x := (⌊uv.x * width⌋).toNat
    let y := (⌊uv.y * height⌋).toNat
    some (min (y * width + x) (width * height - 1))
  else none

/-- `Film::add_splats` (`film.rs` lines 188-193): accumulate each splat's
RGB into the canvas at its UV-derived index. -/
def addSplats (width height : ℕ) (canvas : List (V3 ℚ))
    (splats : List SplatQ) : Option (List (V3 ℚ)) :=
  splats.foldl
    (fun acc sp =>
      match acc with
      | none => none
      | some c =>
        match uvToIdx width height sp.uv with
        | none => none
        | some idx =>
          if idx < c.length then
            some (c.set idx (q3Add (c.getD idx ⟨0, 0, 0⟩) sp.rgb))
          else none)
    (some canvas)

/-! ## Work dispatcher (`src/src/work_handler.rs` lines 166-191) -/

/-- `const MIN_WORKGROUP_SIZE: u64 = 4096`. -/
def minWorkgroupSize : ℕ := 4096

/-- A queued `Pixels(range)` task: half-open pixel span, its fresh work-id
(the RNG-seed counter) and the caller's workload id. -/
structure WorkTask where
  start : ℕ
  stop : ℕ
  workId : ℕ
  workloadId : ℕ
deriving DecidableEq, Repr

/-- The `while pixels_start < end` expansion loop of the `WorkSamples`
arm; structural fuel (`createWork` passes `stop`, which bounds the
iteration count since the workgroup size is at least 4096). -/
def chunkLoop (wg stop : ℕ) :
    ℕ → ℕ → ℕ → ℕ → List WorkTask
  | 0, _, _, _ => []
  | fuel + 1, pixelsStart, workId, workloadId =>
    if pixelsStart < stop then
      let pixelsEnd := min (pixelsStart + wg) stop
      ⟨pixelsStart, pixelsEnd, workId, workloadId⟩ ::
        chunkLoop wg stop fuel pixelsEnd (workId + 1) workloadId
    else []

/-- The `ComputeChange::WorkSamples(samples, workload_id)` arm
(`work_handler.rs` lines 166-191): workgroup size
`max(4096, W·H/256)`, spans `[pixels_start, pixels_end)` until
`samples·W·H`, work ids counting up from the dispatcher's counter. -/
def createWork (width height samples workId0 workloadId : ℕ) :
    List WorkTask :=
  let wg := max minWorkgroupSize (width * height / 256)
  let stop := samples * width * height
  chunkLoop wg stop stop 0 workId0 workloadId

/-! ## Samplable set construction (`yapt/src/main.rs` lines 527-531) -/

/-- `for (i, tri) in tris.iter().enumerate() { if let Mat::Light(_) =
mats[tri.mat] { samplables.push(i) } }`: indexed fold pushing light
triangle indices. -/
def buildSamplableGo (mats : ℕ → Mat) : ℕ → List ℕ → List ℕ → List ℕ
  | _, acc, [] => acc
  | i, acc, m :: rest =>
    buildSamplableGo mats (i + 1)
      (if (mats m).isLight then acc ++ [i] else acc) rest

/-- The samplable-set construction after `Bvh::new` has reordered the
triangles: push every index whose triangle's material is a `Light`.
`triMats` is the per-triangle material index (`Tri.mat`) in BVH order. -/
def buildSamplable (triMats : List ℕ) (mats : ℕ → Mat) : List ℕ :=
  buildSamplableGo mats 0 [] triMats

/-! ## Concrete scenes for witnesses and counterexamples -/

/-- A ray value used for concrete runs (the oracles ignore it). -/
def zeroRay : RayT Fl := ⟨F3.zeroV, F3.zeroV, F3.zeroV⟩

/-- The all-zero rng stream. -/
def uZero : ℕ → Fl := fun _ => Fl.zero

/-- An all-NaN RGB value (e.g. a texture holding NaN texels). -/
def nanV : V3 Fl := ⟨Fl.nanF, Fl.nanF, Fl.nanF⟩

/-- An intersection hit at distance 1 on material 0 (front face). -/
def hitSect : Sect Fl :=
  ⟨Fl.one, ⟨Fl.zero, Fl.zero⟩, F3.zeroV, F3.zeroV, true, 0, 0⟩

/-- A scene whose BVH traversal yields nothing: every ray misses. -/
def trivScene : Scene where
  mats := fun _ => Mat.matte 0
  traverse := fun _ => []
  triSect := fun _ _ k => (SectF.noneS, k)
  triSampleRay := fun _ _ k => ((zeroRay, F3.zeroV), k)
  triPdf := fun _ _ _ => Fl.zero
  envSample := fun _ => F3.zeroV
  texValue := fun _ _ => F3.zeroV
  samplables := []
  scatterRay := fun _ ray k => (ray, k)
  glossyFresnel := fun _ _ => Fl.zero
  metallicPdf := fun _ _ _ => Fl.zero
  metallicEval := fun _ _ _ => F3.zeroV
  metallicBxdf := fun _ _ _ => F3.zeroV
  roughPdf := fun _ _ _ => Fl.zero
  roughEval := fun _ _ _ => F3.zeroV
  roughBxdf := fun _ _ _ => F3.zeroV

/-- A scene with one Lambertian triangle whose albedo texture is NaN:
the first `tp *= mat.eval(..)` poisons the throughput. -/
def nanTexScene : Scene :=
  { trivScene with
    traverse := fun _ => [(0, 1)]
    triSect := fun _ _ k => (hitSect, k)
    texValue := fun _ _ => nanV }

/-- A scene whose environment map returns NaN radiance. -/
def nanEnvScene : Scene :=
  { trivScene with envSample := fun _ => nanV }

/-- Project the result out of a non-panicking run (used to state witness
facts about concrete runs). -/
def runResult (e : Except PanicKind IntResult) : IntResult :=
  match e with
  | .ok r => r
  | .error _ => ⟨F3.zeroV, 0, false, 0⟩

/-- The concrete Naive run on the all-miss scene. -/
def naiveTrivRes : IntResult := runResult (naiveRgb trivScene uZero zeroRay 0)

/-- The concrete NEEMIS run on the all-miss scene with one samplable
index. -/
def neemisTrivRes : IntResult :=
  runResult (neemisRgb trivScene uZero zeroRay 0 [0])

/-! # Theorems -/

/-- C10: with an empty samplable slice, `NEEMIS::rgb` returns exactly
`Naive::rgb` on the same ray and rng state — the NEE+MIS integrator
degenerates to the naive path tracer (`integrator.rs` lines 71-73). -/
theorem neemis_empty_eq_naive (s : Scene) (u : ℕ → Fl) (ray : RayT Fl)
    (k : ℕ) : neemisRgb s u ray k [] = naiveRgb s u ray k := rfl

/-- Helper for C3: the `intersect_idx` walk returns the sentinel exactly
when some other traversed triangle blocks (`specBlocked`), and the target
intersection unchanged otherwise. -/
theorem intersectIdxGo_spec (s : Scene) (ray : RayT Fl) (idx : ℕ)
    (sect : Sect Fl) (L : List ℕ) :
    ∀ k : ℕ, (intersectIdxGo s ray idx sect L k).1 =
      if specBlocked s ray idx sect.t L k then SectF.noneS else sect := by
  induction L with
  | nil => intro k; simp [intersectIdxGo, specBlocked]
  | cons i rest ih =>
    intro k
    by_cases hi : i = idx
    · simp [intersectIdxGo, specBlocked, hi, ih]
    · by_cases hb : (Fl.gt (s.triSect i ray k).1.t Fl.zero
          && Fl.lt (s.triSect i ray k).1.t sect.t) = true
      · simp [intersectIdxGo, specBlocked, hi, hb]
      · simp [intersectIdxGo, specBlocked, hi, hb, ih]

/-- C3: `intersect_idx(ray, idx, rng)` returns the target triangle's miss
unchanged when the target is not hit; otherwise it returns the sentinel
none intersection exactly when some other triangle index produced by BVH
traversal has `t ∈ (0, target_t)` (at its position in the rng stream), and
the target's intersection unchanged otherwise. -/
theorem intersectIdx_characterization (s : Scene) (ray : RayT Fl)
    (idx k : ℕ) :
    (intersectIdx s ray idx k).1 =
      if Sect.isNoneF (s.triSect idx ray k).1 then (s.triSect idx ray k).1
      else if specBlocked s ray idx (s.triSect idx ray k).1.t
          (flattenRanges (s.traverse ray)) (s.triSect idx ray k).2 then
        SectF.noneS
      else (s.triSect idx ray k).1 := by
  unfold intersectIdx
  by_cases hn : Sect.isNoneF (s.triSect idx ray k).1
  · simp [hn]
  · simp [hn, intersectIdxGo_spec]

/-- Helper for C4: full characterisation of the `while pixels_start < end`
chunking loop, given enough fuel and a positive workgroup size. -/
theorem chunkLoop_spec (wg : ℕ) (hwg : 0 < wg) :
    ∀ fuel stop start wid wld : ℕ, stop - start ≤ fuel →
      (chunkLoop wg stop fuel start wid wld).length
          = (stop - start + wg - 1) / wg
        ∧ ∀ j, j < (chunkLoop wg stop fuel start wid wld).length →
            (chunkLoop wg stop fuel start wid wld).getD j ⟨0, 0, 0, 0⟩
              = ⟨start + j * wg, min (start + (j + 1) * wg) stop,
                  wid + j, wld⟩ := by
  intro fuel
  induction fuel with
  | zero =>
    intro stop start wid wld h
    refine ⟨?_, ?_⟩
    · have h0 : stop - start = 0 := by omega
      have h1 : (wg - 1) / wg = 0 := Nat.div_eq_of_lt (by omega)
      simp [chunkLoop, h0, h1]
    · intro j hj
      simp [chunkLoop] at hj
  | succ fuel ih =>
    intro stop start wid wld h
    by_cases hlt : start < stop
    · have hunfold : chunkLoop wg stop (fuel + 1) start wid wld
          = ⟨start, min (start + wg) stop, wid, wld⟩ ::
              chunkLoop wg stop fuel (min (start + wg) stop) (wid + 1) wld := by
        simp [chunkLoop, hlt]
      have hrec := ih stop (min (start + wg) stop) (wid + 1) wld (by omega)
      refine ⟨?_, ?_⟩
      · rw [hunfold, List.length_cons, hrec.1]
        rcases le_or_lt (start + wg) stop with hc | hc
        · have hmin : min (start + wg) stop = start + wg := by omega
          have h1 : stop - start + wg - 1 = (stop - (start + wg) + wg - 1) + wg := by
            omega
          rw [hmin, h1, Nat.add_div_right _ hwg]
        · have hmin : min (start + wg) stop = stop := by omega
          have h1 : stop - stop + wg - 1 = wg - 1 := by omega
          have h2 : (wg - 1) / wg = 0 := Nat.div_eq_of_lt (by omega)
          have h3 : stop - start + wg - 1 = (stop - start - 1) + wg := by omega
          have h4 : (stop - start - 1) / wg = 0 := Nat.div_eq_of_lt (by omega)
          rw [hmin, h1, h2, h3, Nat.add_div_right _ hwg, h4]
      · intro j hj
        rw [hunfold] at hj ⊢
        cases j with
        | zero =>
          simp only [List.getD_cons_zero]
          have h1 : start + 0 * wg = start := by ring
          have h2 : start + (0 + 1) * wg = start + wg := by ring
          rw [h1, h2]
          simp
        | succ j =>
          simp only [List.getD_cons_succ]
          rcases le_or_lt (start + wg) stop with hc | hc
          · have hmin : min (start + wg) stop = start + wg := by omega
            have := hrec.2 j (by simpa using hj)
            rw [this, hmin]
            have e1 : start + wg + j * wg = start + (j + 1) * wg := by ring
            have e2 : start + wg + (j + 1) * wg = start + (j + 1 + 1) * wg := by
              ring
            rw [e1, e2]
            have e3 : wid + 1 + j = wid + (j + 1) := by omega
            rw [e3]
          · have hmin : min (start + wg) stop = stop := by omega
            have hlen0 : (chunkLoop wg stop fuel (min (start + wg) stop)
                (wid + 1) wld).length = 0 := by
              rw [hrec.1, hmin]
              have h1 : stop - stop + wg - 1 = wg - 1 := by omega
              rw [h1]
              exact Nat.div_eq_of_lt (by omega)
            rw [List.length_cons, hlen0] at hj
            omega
    · have h0 : stop - start = 0 := by omega
      have h1 : (wg - 1) / wg = 0 := Nat.div_eq_of_lt (by omega)
      refine ⟨?_, ?_⟩
      · simp [chunkLoop, hlt, h0, h1]
      · intro j hj
        simp [chunkLoop, hlt] at hj

/-- C4: a `WorkSamples(samples, workload_id)` message expands to exactly
`ceil(samples·W·H / wg)` tasks, `wg = max(4096, W·H/256)`; task `j` covers
the half-open span `[j·wg, min((j+1)·wg, samples·W·H))` (so the spans are
contiguous and partition `[0, samples·W·H)` in order), carries the
caller's workload id, and is stamped with work id `workId0 + j` (strictly
increasing by one). -/
theorem createWork_spec (width height samples wid0 wld : ℕ) :
    (createWork width height samples wid0 wld).length
        = (samples * width * height + max 4096 (width * height / 256) - 1)
            / max 4096 (width * height / 256)
      ∧ ∀ j, j < (createWork width height samples wid0 wld).length →
          (createWork width height samples wid0 wld).getD j ⟨0, 0, 0, 0⟩
            = ⟨j * max 4096 (width * height / 256),
                min ((j + 1) * max 4096 (width * height / 256))
                  (samples * width * height),
                wid0 + j, wld⟩ := by
  have hwg : 0 < max 4096 (width * height / 256) := by
    have := Nat.le_max_left 4096 (width * height / 256)
    omega
  have h := chunkLoop_spec (max 4096 (width * height / 256)) hwg
    (samples * width * height) (samples * width * height) 0 wid0 wld
    (by omega)
  unfold createWork minWorkgroupSize
  refine ⟨?_, ?_⟩
  · simpa using h.1
  · intro j hj
    have := h.2 j (by simpa using hj)
    simpa using this

/-- Helper for C9: membership in the indexed push-fold. -/
theorem buildSamplableGo_mem (mats : ℕ → Mat) (l : List ℕ) :
    ∀ (i : ℕ) (acc : List ℕ) (j : ℕ),
      j ∈ buildSamplableGo mats i acc l ↔
        j ∈ acc ∨ ∃ d, d < l.length ∧ j = i + d
          ∧ (mats (l.getD d 0)).isLight = true := by
  induction l with
  | nil => intro i acc j; simp [buildSamplableGo]
  | cons m rest ih =>
    intro i acc j
    simp only [buildSamplableGo]
    rw [ih]
    by_cases hm : (mats m).isLight = true
    · simp only [hm, if_true, List.mem_append, List.mem_singleton,
        List.length_cons]
      constructor
      · rintro ((hacc | rfl) | ⟨d, hd, rfl, hl⟩)
        · exact Or.inl hacc
        · exact Or.inr ⟨0, by omega, by omega, by simpa using hm⟩
        · exact Or.inr ⟨d + 1, by omega, by omega, by simpa using hl⟩
      · rintro (hacc | ⟨d, hd, rfl, hl⟩)
        · exact Or.inl (Or.inl hacc)
        · cases d with
          | zero => exact Or.inl (Or.inr (by omega))
          | succ e =>
            refine Or.inr ⟨e, by omega, by omega, ?_⟩
            simpa using hl
    · simp only [hm, if_false, List.length_cons]
      constructor
      · rintro (hacc | ⟨d, hd, rfl, hl⟩)
        · exact Or.inl hacc
        · exact Or.inr ⟨d + 1, by omega, by omega, by simpa using hl⟩
      · rintro (hacc | ⟨d, hd, rfl, hl⟩)
        · exact Or.inl hacc
        · cases d with
          | zero => exact absurd (by simpa using hl) hm
          | succ e =>
            refine Or.inr ⟨e, by omega, by omega, ?_⟩
            simpa using hl

/-- C9: after scene initialisation, an index is in the samplable set if
and only if it indexes a triangle (in the BVH-reordered order) whose
material is the `Light` variant. -/
theorem buildSamplable_mem (triMats : List ℕ) (mats : ℕ → Mat) (i : ℕ) :
    i ∈ buildSamplable triMats mats ↔
      i < triMats.length ∧ (mats (triMats.getD i 0)).isLight = true := by
  unfold buildSamplable
  rw [buildSamplableGo_mem]
  simp only [List.not_mem_nil, false_or]
  constructor
  · rintro ⟨d, hd, rfl, hl⟩
    rw [Nat.zero_add]
    exact ⟨hd, hl⟩
  · rintro ⟨h1, h2⟩
    exact ⟨i, h1, by omega, h2⟩

/-- C5: for a splat with UV components in `[0, 1]` the film maps it to
pixel index `min(⌊v·H⌋·W + ⌊u·W⌋, W·H − 1)`, and `add_splats` adds the
splat's RGB into the canvas exactly there, leaving every other entry
unchanged. -/
theorem film_splat_spec (W H : ℕ) (u v : ℚ) (rgb : V3 ℚ)
    (canvas : List (V3 ℚ))
    (hu0 : 0 ≤ u) (hu1 : u ≤ 1) (hv0 : 0 ≤ v) (hv1 : v ≤ 1)
    (hlen : canvas.length = W * H) (hpos : 0 < W * H) :
    uvToIdx W H ⟨u, v⟩
        = some (min ((⌊v * H⌋).toNat * W + (⌊u * W⌋).toNat) (W * H - 1))
      ∧ ∃ c2, addSplats W H canvas [⟨⟨u, v⟩, rgb⟩] = some c2
        ∧ ∀ j, c2.getD j ⟨0, 0, 0⟩
            = if j = min ((⌊v * H⌋).toNat * W + (⌊u * W⌋).toNat) (W * H - 1)
              then q3Add (canvas.getD j ⟨0, 0, 0⟩) rgb
              else canvas.getD j ⟨0, 0, 0⟩ := by
  set idx := min ((⌊v * H⌋).toNat * W + (⌊u * W⌋).toNat) (W * H - 1) with hidx
  have hidxlt : idx < canvas.length := by rw [hlen]; omega
  have huv : uvToIdx W H ⟨u, v⟩ = some idx := by
    simp only [uvToIdx]
    rw [if_pos ⟨hu1, hv1⟩]
  refine ⟨huv, canvas.set idx (q3Add (canvas.getD idx ⟨0, 0, 0⟩) rgb), ?_, ?_⟩
  · simp [addSplats, huv, hidxlt]
  · intro j
    by_cases hj : j = idx
    · subst hj
      rw [if_pos rfl]
      show ((canvas.set idx (q3Add (canvas.getD idx ⟨0, 0, 0⟩) rgb)).get?
          idx).getD ⟨0, 0, 0⟩ = q3Add (canvas.getD idx ⟨0, 0, 0⟩) rgb
      rw [List.get?_set_eq_of_lt _ hidxlt]
      rfl
    · rw [if_neg hj]
      show ((canvas.set idx _).get? j).getD _ = _
      rw [List.get?_set_ne _ _ (by omega)]
      rfl

/-- Witness for C4: a 2×2 image, one sample, one 4096-pixel task. -/
theorem createWork_witness :
    (createWork 2 2 1 5 7).length
        = (1 * 2 * 2 + max 4096 (2 * 2 / 256) - 1) / max 4096 (2 * 2 / 256)
      ∧ (createWork 2 2 1 5 7).getD 0 ⟨0, 0, 0, 0⟩
          = ⟨0 * max 4096 (2 * 2 / 256),
              min ((0 + 1) * max 4096 (2 * 2 / 256)) (1 * 2 * 2), 5 + 0, 7⟩ :=
  ⟨(createWork_spec 2 2 1 5 7).1, (createWork_spec 2 2 1 5 7).2 0 (by decide)⟩

/-- Witness for C5: splat at UV `(1/2, 1/2)` on a 2×2 canvas maps to
pixel index 3. -/
theorem film_splat_witness : uvToIdx 2 2 ⟨1 / 2, 1 / 2⟩ = some 3 := by
  have h := (film_splat_spec 2 2 (1 / 2) (1 / 2) ⟨1, 1, 1⟩
    [⟨0, 0, 0⟩, ⟨0, 0, 0⟩, ⟨0, 0, 0⟩, ⟨0, 0, 0⟩]
    (by norm_num) (by norm_num) (by norm_num) (by norm_num) rfl
    (by norm_num)).1
  norm_num at h
  exact h

/-- Helper: every `ok` result of the Naive tail has `iters = depth`, a
NaN-free radiance, and warns only with the `(Vec3::X, 0)` return. -/
theorem naiveFinish_ok {rgb : V3 Fl} {depth : ℕ} {r : IntResult}
    (h : naiveFinish rgb depth = .ok r) :
    r.iters = depth ∧ F3.containsNan r.rgb = false
      ∧ (r.warned = true → r.rgb = F3.xV ∧ r.count = 0) := by
  unfold naiveFinish at h
  split at h
  · injection h with h2
    subst h2
    exact ⟨rfl, rfl, fun _ => ⟨rfl, rfl⟩⟩
  · next hnan =>
    injection h with h2
    subst h2
    exact ⟨rfl, by simpa using hnan, by simp⟩

/-- Helper: every `ok` result of the NEEMIS tail has the given `iters`, a
NaN-free radiance, and warns only with the `(Vec3::ZERO, 0)` return. -/
theorem neemisFinish_ok {rgb : V3 Fl} {rayCount iters : ℕ} {r : IntResult}
    (h : neemisFinish rgb rayCount iters = .ok r) :
    r.iters = iters ∧ F3.containsNan r.rgb = false
      ∧ (r.warned = true → r.rgb = F3.zeroV ∧ r.count = 0) := by
  unfold neemisFinish at h
  split at h
  · injection h with h2
    subst h2
    exact ⟨rfl, rfl, fun _ => ⟨rfl, rfl⟩⟩
  · next hnan =>
    injection h with h2
    subst h2
    exact ⟨rfl, by simpa using hnan, by simp⟩

/-- Helper: every `ok` run of the Naive bounce loop executes at most
`depth + fuel` iterations, never returns NaN radiance, and warns only
with the `(Vec3::X, 0)` return. -/
theorem naiveGo_bound (s : Scene) (u : ℕ → Fl) :
    ∀ (fuel depth : ℕ) (ray : RayT Fl) (tp rgb : V3 Fl) (k : ℕ)
      (r : IntResult),
      naiveGo s u fuel depth ray tp rgb k = .ok r →
      r.iters ≤ depth + fuel ∧ F3.containsNan r.rgb = false
        ∧ (r.warned = true → r.rgb = F3.xV ∧ r.count = 0) := by
  intro fuel
  induction fuel with
  | zero =>
    intro depth ray tp rgb k r h
    have hh := naiveFinish_ok (show naiveFinish rgb depth = .ok r from h)
    exact ⟨by omega, hh.2⟩
  | succ fuel ih =>
    intro depth ray tp rgb k r h
    simp only [naiveGo] at h
    split at h
    · have hh := naiveFinish_ok h
      exact ⟨by omega, hh.2⟩
    · split at h
      · simp at h
      · next x heq =>
        split at h
        · have hh := naiveFinish_ok h
          exact ⟨by omega, hh.2⟩
        · split at h
          · simp at h
          · split at h
            · injection h with h2
              subst h2
              exact ⟨by show depth + 1 ≤ depth + (fuel + 1); omega, rfl,
                by simp⟩
            · split at h
              · split at h
                · have hh := naiveFinish_ok h
                  exact ⟨by omega, hh.2⟩
                · have hh := ih _ _ _ _ _ _ h
                  exact ⟨by omega, hh.2⟩
              · have hh := ih _ _ _ _ _ _ h
                exact ⟨by omega, hh.2⟩

/-- Helper: every `ok` run of the NEEMIS bounce loop executes at most
`depth + fuel` iterations, never returns NaN radiance, and warns only
with the `(Vec3::ZERO, 0)` return. -/
theorem neemisGo_bound (s : Scene) (u : ℕ → Fl) (samplable : List ℕ)
    (inv : Fl) :
    ∀ (fuel depth : ℕ) (ray : RayT Fl) (sect : Sect Fl) (wo tp rgb : V3 Fl)
      (rayCount k : ℕ) (r : IntResult),
      neemisGo s u samplable inv fuel depth ray sect wo tp rgb rayCount k
          = .ok r →
      r.iters ≤ depth + fuel ∧ F3.containsNan r.rgb = false
        ∧ (r.warned = true → r.rgb = F3.zeroV ∧ r.count = 0) := by
  intro fuel
  induction fuel with
  | zero =>
    intro depth ray sect wo tp rgb rayCount k r h
    have hh := neemisFinish_ok
      (show neemisFinish rgb rayCount (depth - 1) = .ok r from h)
    exact ⟨by omega, hh.2⟩
  | succ fuel ih =>
    intro depth ray sect wo tp rgb rayCount k r h
    simp only [neemisGo] at h
    split at h
    · simp at h
    · split at h
      · simp at h
      · split at h
        · simp at h
        · split at h
          · simp at h
          · split at h
            · have hh := neemisFinish_ok h
              exact ⟨by omega, hh.2⟩
            · split at h
              · simp at h
              · split at h
                · have hh := neemisFinish_ok h
                  exact ⟨by omega, hh.2⟩
                · split at h
                  · split at h
                    · have hh := neemisFinish_ok h
                      exact ⟨by omega, hh.2⟩
                    · have hh := ih _ _ _ _ _ _ _ _ _ h
                      exact ⟨by omega, hh.2⟩
                  · have hh := ih _ _ _ _ _ _ _ _ _ h
                    exact ⟨by omega, hh.2⟩

/-- C7: both integrators terminate after at most `MAX_DEPTH = 50` bounce
iterations, whatever the scene oracles and random draws do: `Naive::rgb`
runs its `while depth < MAX_DEPTH` body at most 50 times, and
`NEEMIS::rgb` runs its `for depth in 1..MAX_DEPTH` body at most 49
times. -/
theorem integrator_depth_cap (s : Scene) (u : ℕ → Fl) (ray : RayT Fl)
    (k : ℕ) (samplable : List ℕ) :
    (∀ r, naiveRgb s u ray k = .ok r → r.iters ≤ maxDepth)
      ∧ (∀ r, neemisRgb s u ray k samplable = .ok r →
          r.iters ≤ maxDepth) := by
  have hmd : maxDepth = 50 := rfl
  constructor
  · intro r h
    have hh := naiveGo_bound s u maxDepth 0 ray F3.oneV F3.zeroV k r h
    omega
  · intro r h
    simp only [neemisRgb] at h
    split at h
    · have hh := naiveGo_bound s u maxDepth 0 ray F3.oneV F3.zeroV k r h
      omega
    · split at h
      · injection h with h2
        subst h2
        exact Nat.zero_le _
      · split at h
        · injection h with h2
          subst h2
          exact Nat.zero_le _
        · have hh := neemisGo_bound s u samplable _ _ _ _ _ _ _ _ _ _ _ h
          omega

/-- Witness for C7 at a concrete scene whose rays all miss. -/
theorem integrator_depth_cap_witness :
    naiveTrivRes.iters ≤ maxDepth ∧ neemisTrivRes.iters ≤ maxDepth :=
  ⟨(integrator_depth_cap trivScene uZero zeroRay 0 [0]).1 naiveTrivRes rfl,
   (integrator_depth_cap trivScene uZero zeroRay 0 [0]).2 neemisTrivRes rfl⟩

/-- C1 (amended): `Naive::rgb` never returns NaN radiance, and its
warning return is `(Vec3::X, 0)`; a NaN throughput instead returns the
unlogged debug value `(0,1,0)` (see the counterexample).  `NEEMIS::rgb`
with a non-empty samplable slice never returns NaN radiance provided the
environment map and the light emissions are NaN-free (its first-miss and
first-light returns are unchecked), and its warning return is
`(Vec3::ZERO, 0)`. -/
theorem integrator_nan_policy (s : Scene) (u : ℕ → Fl) (ray : RayT Fl)
    (k : ℕ) (samplable : List ℕ) :
    (∀ r, naiveRgb s u ray k = .ok r →
        F3.containsNan r.rgb = false
          ∧ (r.warned = true → r.rgb = F3.xV ∧ r.count = 0))
      ∧ ((∀ v, F3.containsNan (s.envSample v) = false) →
         (∀ i, F3.containsNan (Mat.le (s.mats i)) = false) →
         samplable ≠ [] →
         ∀ r, neemisRgb s u ray k samplable = .ok r →
           F3.containsNan r.rgb = false
             ∧ (r.warned = true → r.rgb = F3.zeroV ∧ r.count = 0)) := by
  constructor
  · intro r h
    exact (naiveGo_bound s u maxDepth 0 ray F3.oneV F3.zeroV k r h).2
  · intro hEnv hLe hne r h
    simp only [neemisRgb] at h
    split at h
    · next hemp => exact absurd (by simpa using hemp) hne
    · split at h
      · injection h with h2
        subst h2
        exact ⟨hEnv _, by simp⟩
      · split at h
        · injection h with h2
          subst h2
          exact ⟨hLe _, by simp⟩
        · exact (neemisGo_bound s u samplable _ _ _ _ _ _ _ _ _ _ _ h).2

/-- Witness for C1 at a concrete scene whose rays all miss. -/
theorem integrator_nan_policy_witness :
    F3.containsNan naiveTrivRes.rgb = false
      ∧ F3.containsNan neemisTrivRes.rgb = false :=
  ⟨((integrator_nan_policy trivScene uZero zeroRay 0 [0]).1
      naiveTrivRes rfl).1,
   ((integrator_nan_policy trivScene uZero zeroRay 0 [0]).2
      (fun _ => rfl) (fun _ => rfl) (by decide) neemisTrivRes rfl).1⟩

/-- Counterexample for C1 as stated: on a scene whose Lambertian albedo
texture holds NaN, `Naive::rgb` detects the NaN throughput and returns
the GREEN debug value `(0,1,0)` with ray count 1 and NO warning — neither
zero radiance nor a logged warning; and on a scene whose environment map
returns NaN, `NEEMIS::rgb`'s first-miss return hands the NaN radiance
through unchecked. -/
theorem integrator_nan_policy_counterexample :
    naiveRgb nanTexScene uZero zeroRay 0 = .ok ⟨F3.greenV, 1, false, 1⟩
      ∧ F3.greenV ≠ F3.zeroV
      ∧ neemisRgb nanEnvScene uZero zeroRay 0 [0]
          = .ok ⟨nanV, 1, false, 0⟩
      ∧ F3.containsNan nanV = true :=
  ⟨rfl, by decide, rfl, rfl⟩

/-- Helper: `Mat::scatter` panics only on `Invisible`. -/
theorem scatterE_some (s : Scene) (m : Mat) (sect : Sect Fl) (ray : RayT Fl)
    (u : ℕ → Fl) (k : ℕ) (hm : m ≠ Mat.invisible) :
    ∃ x, Mat.scatterE s m sect ray u k = some x := by
  cases m with
  | invisible => exact absurd rfl hm
  | glossy a b c =>
    simp only [Mat.scatterE]
    split <;> exact ⟨_, rfl⟩
  | _ => exact ⟨_, rfl⟩

/-- Helper: only `Light`'s scatter status contains EXIT. -/
theorem scatterE_status {s : Scene} {m : Mat} {sect : Sect Fl}
    {ray : RayT Fl} {u : ℕ → Fl} {k : ℕ} {x : (RayT Fl × SStat) × ℕ}
    (h : Mat.scatterE s m sect ray u k = some x)
    (hl : m.isLight = false) :
    SStat.contains x.1.2 SStat.exitS = false := by
  cases m with
  | light irr => simp [Mat.isLight] at hl
  | invisible => simp [Mat.scatterE] at h
  | glossy a b c =>
    simp only [Mat.scatterE] at h
    split at h
    · injection h with h2
      subst h2
      simp [SStat.contains, SStat.normal, SStat.exitS, SStat.diracDelta]
    · injection h with h2
      subst h2
      simp [SStat.contains, SStat.normal, SStat.exitS, SStat.diracDelta]
  | _ =>
    simp only [Mat.scatterE] at h
    injection h with h2
    subst h2
    simp [SStat.contains, SStat.normal, SStat.exitS, SStat.diracDelta]

/-- Helper: the purely-Dirac materials (`Refractive`, `Reflective`) always
scatter with the DIRAC_DELTA flag set. -/
theorem scatterE_dirac {s : Scene} {m : Mat} {sect : Sect Fl}
    {ray : RayT Fl} {u : ℕ → Fl} {k : ℕ} {x : (RayT Fl × SStat) × ℕ}
    (h : Mat.scatterE s m sect ray u k = some x)
    (hp : MProps.contains (Mat.props m) MProps.onlyDiracDelta = true) :
    SStat.contains x.1.2 SStat.diracDelta = true := by
  cases m with
  | refractive i =>
    simp only [Mat.scatterE] at h
    injection h with h2
    subst h2
    simp [SStat.contains, SStat.diracDelta]
  | reflective f =>
    simp only [Mat.scatterE] at h
    injection h with h2
    subst h2
    simp [SStat.contains, SStat.diracDelta]
  | _ =>
    exact absurd
      (show MProps.contains MProps.normal MProps.onlyDiracDelta = true from hp)
      (by decide)

/-- Helper: `Mat::eval` panics only on `Light` and `Invisible`. -/
theorem evalE_some (s : Scene) (m : Mat) (sect : Sect Fl) (wo wi : V3 Fl)
    (status : SStat) (hl : m.isLight = false) (hm : m ≠ Mat.invisible) :
    ∃ v, Mat.evalE s m sect wo wi status = some v := by
  cases m with
  | light irr => simp [Mat.isLight] at hl
  | invisible => exact absurd rfl hm
  | glossy a b c =>
    simp only [Mat.evalE]
    split <;> exact ⟨_, rfl⟩
  | _ => exact ⟨_, rfl⟩

/-- Helper: the light-sampling step never panics when the current material
is not `Invisible`: the purely-Dirac materials are skipped by the
`ONLY_DIRAC_DELTA` gate, `Light`'s zero spdf short-circuits its
`bxdf_cos`, and every other variant has total `spdf`/`bxdf_cos`. -/
theorem lightSampleStep_ok (s : Scene) (mat : Mat) (sect : Sect Fl)
    (wo tp rgb : V3 Fl) (inv : Fl) (lightIdx : ℕ) (lightRay : RayT Fl)
    (lightLe : V3 Fl) (lightSect : Sect Fl) (hm : mat ≠ Mat.invisible) :
    ∃ v, lightSampleStep s mat sect wo tp rgb inv lightIdx lightRay lightLe
        lightSect = .ok v := by
  unfold lightSampleStep
  split
  · next hcond =>
    rw [Bool.and_eq_true, Bool.not_eq_true', Bool.not_eq_true'] at hcond
    cases mat with
    | invisible => exact absurd rfl hm
    | refractive i =>
      exact absurd
        (show MProps.contains MProps.onlyDiracDelta MProps.onlyDiracDelta
            = false from hcond.2) (by decide)
    | reflective f =>
      exact absurd
        (show MProps.contains MProps.onlyDiracDelta MProps.onlyDiracDelta
            = false from hcond.2) (by decide)
    | light irr =>
      simp only [Mat.spdf, Mat.bxdfCos]
      have hb : Fl.beq Fl.zero Fl.zero = true := by decide
      rw [hb]
      simp
    | matte a =>
      simp only [Mat.spdf, Mat.bxdfCos]
      split <;> exact ⟨_, rfl⟩
    | metallic a b =>
      simp only [Mat.spdf, Mat.bxdfCos]
      split <;> exact ⟨_, rfl⟩
    | glossy a b c =>
      simp only [Mat.spdf, Mat.bxdfCos]
      split <;> exact ⟨_, rfl⟩
    | roughRefractive a b =>
      simp only [Mat.spdf, Mat.bxdfCos]
      split <;> exact ⟨_, rfl⟩
  · exact ⟨_, rfl⟩

/-- Helper: the MIS weighting step never panics when the current material
is not `Invisible` and purely-Dirac scatters carry their DIRAC_DELTA flag
(so the `!DIRAC_DELTA` gate protects `Mat::spdf`). -/
theorem bsdfWeightStep_ok (s : Scene) (samplable : List ℕ) (mat : Mat)
    (sect newSect : Sect Fl) (wo : V3 Fl) (ray2 : RayT Fl) (status : SStat)
    (tp rgb : V3 Fl) (inv : Fl) (hm : mat ≠ Mat.invisible)
    (hd : MProps.contains (Mat.props mat) MProps.onlyDiracDelta = true →
      SStat.contains status SStat.diracDelta = true) :
    ∃ v, bsdfWeightStep s samplable mat sect newSect wo ray2 status tp rgb
        inv = .ok v := by
  unfold bsdfWeightStep
  split
  · next hcond =>
    rw [Bool.and_eq_true, Bool.not_eq_true'] at hcond
    cases mat with
    | invisible => exact absurd rfl hm
    | refractive i =>
      have := hd (show MProps.contains MProps.onlyDiracDelta
        MProps.onlyDiracDelta = true by decide)
      rw [this] at hcond
      simp at hcond
    | reflective f =>
      have := hd (show MProps.contains MProps.onlyDiracDelta
        MProps.onlyDiracDelta = true by decide)
      rw [this] at hcond
      simp at hcond
    | light irr => exact ⟨_, rfl⟩
    | matte a => exact ⟨_, rfl⟩
    | metallic a b => exact ⟨_, rfl⟩
    | glossy a b c => exact ⟨_, rfl⟩
    | roughRefractive a b => exact ⟨_, rfl⟩
  · exact ⟨_, rfl⟩

/-- Helper: `Mat::scatter` cannot panic off `Invisible` (ne-form). -/
theorem scatterE_ne_none {s : Scene} {m : Mat} {sect : Sect Fl}
    {ray : RayT Fl} {u : ℕ → Fl} {k : ℕ} (hm : m ≠ Mat.invisible) :
    Mat.scatterE s m sect ray u k ≠ none := by
  obtain ⟨x, hx⟩ := scatterE_some s m sect ray u k hm
  intro h
  rw [hx] at h
  exact Option.noConfusion h

/-- Helper: `Mat::eval` cannot panic off `Light`/`Invisible` (ne-form). -/
theorem evalE_ne_none {s : Scene} {m : Mat} {sect : Sect Fl} {wo wi : V3 Fl}
    {status : SStat} (hl : m.isLight = false) (hm : m ≠ Mat.invisible) :
    Mat.evalE s m sect wo wi status ≠ none := by
  obtain ⟨v, hv⟩ := evalE_some s m sect wo wi status hl hm
  intro h
  rw [hv] at h
  exact Option.noConfusion h

/-- Helper: the light-sampling step cannot panic (ne-form). -/
theorem lightSampleStep_ne_error {s : Scene} {mat : Mat} {sect : Sect Fl}
    {wo tp rgb : V3 Fl} {inv : Fl} {lightIdx : ℕ} {lightRay : RayT Fl}
    {lightLe : V3 Fl} {lightSect : Sect Fl} {e : PanicKind}
    (hm : mat ≠ Mat.invisible) :
    lightSampleStep s mat sect wo tp rgb inv lightIdx lightRay lightLe
        lightSect ≠ .error e := by
  obtain ⟨v, hv⟩ := lightSampleStep_ok s mat sect wo tp rgb inv lightIdx
    lightRay lightLe lightSect hm
  intro h
  rw [hv] at h
  exact Except.noConfusion h

/-- Helper: the MIS weighting step cannot panic (ne-form). -/
theorem bsdfWeightStep_ne_error {s : Scene} {samplable : List ℕ} {mat : Mat}
    {sect newSect : Sect Fl} {wo : V3 Fl} {ray2 : RayT Fl} {status : SStat}
    {tp rgb : V3 Fl} {inv : Fl} {e : PanicKind} (hm : mat ≠ Mat.invisible)
    (hd : MProps.contains (Mat.props mat) MProps.onlyDiracDelta = true →
      SStat.contains status SStat.diracDelta = true) :
    bsdfWeightStep s samplable mat sect newSect wo ray2 status tp rgb inv
      ≠ .error e := by
  obtain ⟨v, hv⟩ := bsdfWeightStep_ok s samplable mat sect newSect wo ray2
    status tp rgb inv hm hd
  intro h
  rw [hv] at h
  exact Except.noConfusion h

/-- Helper: a scatter whose status lacks EXIT did not come from a Light
material. -/
theorem scatterE_isLight_of_not_exit {s : Scene} {m : Mat} {sect : Sect Fl}
    {ray : RayT Fl} {u : ℕ → Fl} {k : ℕ} {x : (RayT Fl × SStat) × ℕ}
    (h : Mat.scatterE s m sect ray u k = some x)
    (hex : SStat.contains x.1.2 SStat.exitS = false) :
    m.isLight = false := by
  cases m with
  | light irr =>
    simp only [Mat.scatterE] at h
    injection h with h2
    subst h2
    simp [SStat.contains, SStat.exitS] at hex
  | _ => rfl

/-- Helper: under the no-Invisible-hit invariant, the Naive loop never
panics. -/
theorem naiveGo_ok (s : Scene) (u : ℕ → Fl)
    (hs : ∀ ray k, Sect.isNoneF (getSect s ray k).1 = false →
      s.mats ((getSect s ray k).1.mat) ≠ Mat.invisible) :
    ∀ (fuel depth : ℕ) (ray : RayT Fl) (tp rgb : V3 Fl) (k : ℕ),
      ∃ r, naiveGo s u fuel depth ray tp rgb k = .ok r := by
  intro fuel
  induction fuel with
  | zero =>
    intro depth ray tp rgb k
    unfold naiveGo naiveFinish
    split <;> exact ⟨_, rfl⟩
  | succ fuel ih =>
    intro depth ray tp rgb k
    simp only [naiveGo]
    split
    · unfold naiveFinish
      split <;> exact ⟨_, rfl⟩
    · next hn =>
      have hn' : Sect.isNoneF (getSect s ray k).1 = false := by
        simpa using hn
      have hinv := hs ray k hn'
      split
      · next heq => exact absurd heq (scatterE_ne_none hinv)
      · next ray2 status k2 heq =>
        split
        · unfold naiveFinish
          split <;> exact ⟨_, rfl⟩
        · next hex =>
          have hlf := scatterE_isLight_of_not_exit heq (by simpa using hex)
          split
          · next heq3 => exact absurd heq3 (evalE_ne_none hlf hinv)
          · next ev heq3 =>
            split
            · exact ⟨_, rfl⟩
            · split
              · split
                · unfold naiveFinish
                  split <;> exact ⟨_, rfl⟩
                · exact ih _ _ _ _ _
              · exact ih _ _ _ _ _

/-- Helper: under the no-Invisible-hit invariant, the NEEMIS loop never
panics when the current vertex's material is neither Light nor
Invisible. -/
theorem neemisGo_ok (s : Scene) (u : ℕ → Fl) (samplable : List ℕ) (inv : Fl)
    (hs : ∀ ray k, Sect.isNoneF (getSect s ray k).1 = false →
      s.mats ((getSect s ray k).1.mat) ≠ Mat.invisible) :
    ∀ (fuel depth : ℕ) (ray : RayT Fl) (sect : Sect Fl) (wo tp rgb : V3 Fl)
      (rayCount k : ℕ),
      s.mats sect.mat ≠ Mat.invisible →
      (s.mats sect.mat).isLight = false →
      ∃ r, neemisGo s u samplable inv fuel depth ray sect wo tp rgb rayCount k
          = .ok r := by
  intro fuel
  induction fuel with
  | zero =>
    intro depth ray sect wo tp rgb rayCount k hinv hlf
    unfold neemisGo neemisFinish
    split <;> exact ⟨_, rfl⟩
  | succ fuel ih =>
    intro depth ray sect wo tp rgb rayCount k hinv hlf
    simp only [neemisGo]
    split
    · next heq => exact absurd heq (lightSampleStep_ne_error hinv)
    · next rgb1 heq =>
      split
      · next heq2 => exact absurd heq2 (scatterE_ne_none hinv)
      · next ray2 status k4 heq2 =>
        split
        · next hex =>
          have hst := scatterE_status heq2 hlf
          simp only [] at hst
          rw [hst] at hex
          exact Bool.noConfusion hex
        · next hex =>
          split
          · next heq3 => exact absurd heq3 (evalE_ne_none hlf hinv)
          · next ev heq3 =>
            split
            · unfold neemisFinish
              split <;> exact ⟨_, rfl⟩
            · next hnew =>
              have hnew' : Sect.isNoneF (getSect s ray2 k4).1 = false := by
                simpa using hnew
              split
              · next heq4 =>
                exact absurd heq4 (bsdfWeightStep_ne_error hinv
                  (fun hp => scatterE_dirac heq2 hp))
              · next rgb2 heq4 =>
                split
                · unfold neemisFinish
                  split <;> exact ⟨_, rfl⟩
                · next hlm =>
                  have hlm' : (s.mats (getSect s ray2 k4).1.mat).isLight
                      = false := by simpa using hlm
                  split
                  · split
                    · unfold neemisFinish
                      split <;> exact ⟨_, rfl⟩
                    · exact ih _ _ _ _ _ _ _ _ (hs ray2 k4 hnew') hlm'
                  · exact ih _ _ _ _ _ _ _ _ (hs ray2 k4 hnew') hlm'

/-- C2: in `NEEMIS::rgb` the light-sampling contribution is computed only
for materials without `ONLY_DIRAC_DELTA`, the MIS weight consults
`Mat::spdf` only for non-`DIRAC_DELTA` scatters, and purely-Dirac
materials (`Refractive`, `Reflective`) always scatter `DIRAC_DELTA`; so,
given that intersections never carry an `Invisible` material (its
`uv_intersect` rejects every hit), no `unreachable!()` arm of
`Mat::spdf`/`Mat::bxdf_cos`/`Mat::eval`/`Mat::scatter` and not the EXIT
check of the bounce loop is ever executed: every run returns a value. -/
theorem neemis_no_panic (s : Scene) (u : ℕ → Fl)
    (hs : ∀ ray k, Sect.isNoneF (getSect s ray k).1 = false →
      s.mats ((getSect s ray k).1.mat) ≠ Mat.invisible)
    (ray : RayT Fl) (k : ℕ) (samplable : List ℕ) :
    ∃ r, neemisRgb s u ray k samplable = .ok r := by
  simp only [neemisRgb]
  split
  · exact naiveGo_ok s u hs _ _ _ _ _ _
  · split
    · exact ⟨_, rfl⟩
    · split
      · exact ⟨_, rfl⟩
      · next hn hl =>
        have hn' : Sect.isNoneF (getSect s ray k).1 = false := by
          simpa using hn
        have hl' : (s.mats (getSect s ray k).1.mat).isLight = false := by
          simpa using hl
        exact neemisGo_ok s u samplable _ hs _ _ _ _ _ _ _ _ _
          (hs ray k hn') hl'

/-- Witness for C2: the all-miss scene satisfies the invariant vacuously
and the run returns a value. -/
theorem neemis_no_panic_witness :
    ∃ r, neemisRgb trivScene uZero zeroRay 0 [0] = .ok r :=
  neemis_no_panic trivScene uZero
    (fun ray k h => by
      have ht : Sect.isNoneF (getSect trivScene ray k).1 = true := rfl
      simp [ht] at h)
    zeroRay 0 [0]

/-- Helper: `(a × b) · a = 0`. -/
theorem cross_dot_left (a b : V3 ℝ) : R3.dot (R3.cross a b) a = 0 := by
  simp only [R3.dot, R3.cross]
  ring

/-- Helper: `(a × b) · b = 0`. -/
theorem cross_dot_right (a b : V3 ℝ) : R3.dot (R3.cross a b) b = 0 := by
  simp only [R3.dot, R3.cross]
  ring

/-- Helper: Lagrange identity for the cross product's squared norm. -/
theorem cross_dot_self (a b : V3 ℝ) :
    R3.dot (R3.cross a b) (R3.cross a b)
      = R3.dot a a * R3.dot b b - R3.dot a b ^ 2 := by
  simp only [R3.dot, R3.cross]
  ring

/-- Helper: the frame `(a, a × c, c)` with `a`, `c` orthonormal is
inverted exactly by its transpose, in both composition orders (polynomial
certificates for the completeness relation). -/
theorem frame_inverse (a c : V3 ℝ)
    (haa : R3.dot a a = 1) (hcc : R3.dot c c = 1) (hac : R3.dot a c = 0)
    (v : V3 ℝ) :
    Coordinate.globalToLocal ⟨a, R3.cross a c, c⟩
        (Coordinate.localToGlobal ⟨a, R3.cross a c, c⟩ v) = v
      ∧ Coordinate.localToGlobal ⟨a, R3.cross a c, c⟩
        (Coordinate.globalToLocal ⟨a, R3.cross a c, c⟩ v) = v := by
  obtain ⟨vx, vy, vz⟩ := v
  simp only [R3.dot] at haa hcc hac
  constructor <;>
    simp only [Coordinate.globalToLocal, Coordinate.localToGlobal, R3.cross,
      V3.mk.injEq] <;>
    refine ⟨?_, ?_, ?_⟩
  · linear_combination vx * haa + vz * hac
  · linear_combination (vy * (c.x * c.x + c.y * c.y + c.z * c.z)) * haa
      + vy * hcc - (vy * (a.x * c.x + a.y * c.y + a.z * c.z)) * hac
  · linear_combination vx * hac + vz * hcc
  · linear_combination
      (vx * (c.y * c.y + c.z * c.z) - vy * (c.x * c.y) - vz * (c.x * c.z))
          * haa
        + (vx * (1 - a.x * a.x) - vy * (a.x * a.y) - vz * (a.x * a.z)) * hcc
        + (vx * (2 * a.x * c.x
              - (a.x * c.x + a.y * c.y + a.z * c.z))
            + vy * (a.x * c.y + c.x * a.y) + vz * (a.x * c.z + c.x * a.z))
          * hac
  · linear_combination
      (vy * (c.x * c.x + c.z * c.z) - vx * (c.y * c.x) - vz * (c.y * c.z))
          * haa
        + (vy * (1 - a.y * a.y) - vx * (a.y * a.x) - vz * (a.y * a.z)) * hcc
        + (vy * (2 * a.y * c.y
              - (a.x * c.x + a.y * c.y + a.z * c.z))
            + vx * (a.y * c.x + c.y * a.x) + vz * (a.y * c.z + c.y * a.z))
          * hac
  · linear_combination
      (vz * (c.x * c.x + c.y * c.y) - vx * (c.z * c.x) - vy * (c.z * c.y))
          * haa
        + (vz * (1 - a.z * a.z) - vx * (a.z * a.x) - vy * (a.z * a.y)) * hcc
        + (vz * (2 * a.z * c.z
              - (a.x * c.x + a.y * c.y + a.z * c.z))
            + vx * (a.z * c.x + c.z * a.x) + vy * (a.z * c.y + c.z * a.y))
          * hac

/-- C6: for every unit normal `z` and every unit vector `v`, the frame
built by `Coordinate::new_from_z(z)` satisfies
`global_to_local(local_to_global(v)) = v` and
`local_to_global(global_to_local(v)) = v` exactly over the reals, in both
branches of the tangent construction (`|z.x| > |z.y|` and otherwise). -/
theorem coordinate_roundtrip (z v : V3 ℝ)
    (hz : R3.dot z z = 1) (hv : R3.dot v v = 1) :
    Coordinate.globalToLocal (Coordinate.newFromZ z)
        (Coordinate.localToGlobal (Coordinate.newFromZ z) v) = v
      ∧ Coordinate.localToGlobal (Coordinate.newFromZ z)
        (Coordinate.globalToLocal (Coordinate.newFromZ z) v) = v := by
  by_cases hbr : |z.x| > |z.y|
  · have hx0 : z.x ≠ 0 := by
      intro h0
      rw [h0] at hbr
      simp only [abs_zero] at hbr
      exact absurd hbr (not_lt.mpr (abs_nonneg _))
    have hpos : 0 < z.x * z.x + z.z * z.z := by
      have h1 : 0 < z.x * z.x := mul_self_pos.mpr hx0
      nlinarith [mul_self_nonneg z.z]
    have hs2 : Real.sqrt (z.x * z.x + z.z * z.z)
        * Real.sqrt (z.x * z.x + z.z * z.z) = z.x * z.x + z.z * z.z :=
      Real.mul_self_sqrt hpos.le
    have hs0 : Real.sqrt (z.x * z.x + z.z * z.z) ≠ 0 :=
      ne_of_gt (Real.sqrt_pos.mpr hpos)
    have hframe : Coordinate.newFromZ z
        = ⟨⟨-z.z / Real.sqrt (z.x * z.x + z.z * z.z),
             0 / Real.sqrt (z.x * z.x + z.z * z.z),
             z.x / Real.sqrt (z.x * z.x + z.z * z.z)⟩,
           R3.cross ⟨-z.z / Real.sqrt (z.x * z.x + z.z * z.z),
             0 / Real.sqrt (z.x * z.x + z.z * z.z),
             z.x / Real.sqrt (z.x * z.x + z.z * z.z)⟩ z, z⟩ := by
      simp only [Coordinate.newFromZ, R3.sdiv, if_pos hbr]
    rw [hframe]
    refine frame_inverse _ _ ?_ hz ?_ v
    · simp only [R3.dot]
      field_simp
      ring
    · simp only [R3.dot]
      field_simp
      ring
  · have hyz : 0 < z.y * z.y + z.z * z.z := by
      by_contra hno
      push_neg at hno
      have hy : z.y = 0 := by
        nlinarith [mul_self_nonneg z.y, mul_self_nonneg z.z]
      have hzz : z.z = 0 := by
        nlinarith [mul_self_nonneg z.y, mul_self_nonneg z.z]
      have hxle : |z.x| ≤ |z.y| := not_lt.mp hbr
      rw [hy, abs_zero] at hxle
      have hx : z.x = 0 := abs_nonpos_iff.mp hxle
      simp only [R3.dot] at hz
      rw [hx, hy, hzz] at hz
      norm_num at hz
    have hs2 : Real.sqrt (z.y * z.y + z.z * z.z)
        * Real.sqrt (z.y * z.y + z.z * z.z) = z.y * z.y + z.z * z.z :=
      Real.mul_self_sqrt hyz.le
    have hs0 : Real.sqrt (z.y * z.y + z.z * z.z) ≠ 0 :=
      ne_of_gt (Real.sqrt_pos.mpr hyz)
    have hframe : Coordinate.newFromZ z
        = ⟨⟨0 / Real.sqrt (z.y * z.y + z.z * z.z),
             z.z / Real.sqrt (z.y * z.y + z.z * z.z),
             -z.y / Real.sqrt (z.y * z.y + z.z * z.z)⟩,
           R3.cross ⟨0 / Real.sqrt (z.y * z.y + z.z * z.z),
             z.z / Real.sqrt (z.y * z.y + z.z * z.z),
             -z.y / Real.sqrt (z.y * z.y + z.z * z.z)⟩ z, z⟩ := by
      simp only [Coordinate.newFromZ, R3.sdiv, if_neg hbr]
    rw [hframe]
    refine frame_inverse _ _ ?_ hz ?_ v
    · simp only [R3.dot]
      field_simp
      ring
    · simp only [R3.dot]
      field_simp
      ring

/-- Witness for C6: the frame from `z = (0,0,1)` round-trips
`v = (1,0,0)`. -/
theorem coordinate_roundtrip_witness :
    Coordinate.globalToLocal (Coordinate.newFromZ ⟨0, 0, 1⟩)
        (Coordinate.localToGlobal (Coordinate.newFromZ ⟨0, 0, 1⟩)
          ⟨1, 0, 0⟩) = ⟨1, 0, 0⟩
      ∧ Coordinate.localToGlobal (Coordinate.newFromZ ⟨0, 0, 1⟩)
        (Coordinate.globalToLocal (Coordinate.newFromZ ⟨0, 0, 1⟩)
          ⟨1, 0, 0⟩) = ⟨1, 0, 0⟩ :=
  coordinate_roundtrip ⟨0, 0, 1⟩ ⟨1, 0, 0⟩ (by norm_num [R3.dot])
    (by norm_num [R3.dot])

/-- C8 (amended): both smooth-dielectric scatters return DIRAC_DELTA in
every branch and use `eta1 = 1`, `eta2 = ior` swapped exactly when the
intersection's `out` flag is false; `SmoothDielectric::scatter`
(yapt_core) reflects exactly when the Fresnel reflectance is `≥` the
drawn sample, while `Refractive::scatter` (yapt) reflects exactly when
total internal reflection occurs or the reflectance is STRICTLY `>` the
drawn sample — at reflectance-equals-sample the two branches differ (see
the counterexample). -/
theorem dielectric_scatter_spec (ior : ℝ) (sect : Sect ℝ) (ray : RayT ℝ)
    (u0 : ℝ) :
    (smoothDielectricScatter ior sect ray u0).2 = SStat.diracDelta
    ∧ (refractiveScatter ior sect ray u0).2 = SStat.diracDelta
    ∧ (fresnelDielectric (if sect.out then 1 else ior)
          (if sect.out then ior else 1) sect.nor (R3.neg ray.dir) ≥ u0 →
        (smoothDielectricScatter ior sect ray u0).1
          = specReflectRay sect (R3.neg ray.dir))
    ∧ (¬ fresnelDielectric (if sect.out then 1 else ior)
          (if sect.out then ior else 1) sect.nor (R3.neg ray.dir) ≥ u0 →
        (smoothDielectricScatter ior sect ray u0).1
          = specRefractRay (if sect.out then 1 else ior)
              (if sect.out then ior else 1) sect (R3.neg ray.dir))
    ∧ (((if sect.out then (1 : ℝ) else ior) / (if sect.out then ior else 1))
            ^ 2 * (1 - R3.dot (R3.neg ray.dir) sect.nor ^ 2) ≥ 1 ∨
        fresnelDielectric (if sect.out then 1 else ior)
          (if sect.out then ior else 1) sect.nor (R3.neg ray.dir) > u0 →
        (refractiveScatter ior sect ray u0).1
          = specReflectRay sect (R3.neg ray.dir))
    ∧ (¬ ((if sect.out then (1 : ℝ) else ior) / (if sect.out then ior else 1))
            ^ 2 * (1 - R3.dot (R3.neg ray.dir) sect.nor ^ 2) ≥ 1 →
        ¬ fresnelDielectric (if sect.out then 1 else ior)
          (if sect.out then ior else 1) sect.nor (R3.neg ray.dir) > u0 →
        (refractiveScatter ior sect ray u0).1
          = specRefractRay (if sect.out then 1 else ior)
              (if sect.out then ior else 1) sect (R3.neg ray.dir)) := by
  have hperp : ∀ e : ℝ,
      R3.smul e (R3.add ray.dir (R3.smul (R3.dot (R3.neg ray.dir) sect.nor)
        sect.nor))
        = R3.smul e (R3.sub (R3.smul (R3.dot (R3.neg ray.dir) sect.nor)
            sect.nor) (R3.neg ray.dir)) := by
    intro e
    simp only [R3.smul, R3.add, R3.sub, R3.neg, R3.dot, V3.mk.injEq]
    refine ⟨by ring, by ring, by ring⟩
  by_cases ho : sect.out = true <;>
    simp only [smoothDielectricScatter, refractiveScatter,
      specReflectRay, specRefractRay, ho, Bool.not_eq_true, not_true,
      not_false_iff, if_true, if_false, ite_true, ite_false,
      Bool.false_eq_true, Bool.true_eq_false] <;>
    refine ⟨?_, ?_, ?_, ?_, ?_, ?_⟩
  · split <;> rfl
  · split
    · rfl
    · split <;> rfl
  · intro hf
    split
    · rfl
    · next hc => exact absurd hf hc
  · intro hf
    split
    · next hc => exact absurd hc hf
    · rfl
  · intro h
    split
    · rfl
    · next hTIR =>
      rcases h with h | h
      · exact absurd h hTIR
      · simp only [fresnelDielectric] at h
        rw [if_neg hTIR] at h
        rw [if_pos h]
  · intro hTIR hf
    rw [if_neg hTIR]
    simp only [fresnelDielectric] at hf
    rw [if_neg hTIR] at hf
    rw [if_neg hf]
    rw [hperp]
  · split <;> rfl
  · split
    · rfl
    · split <;> rfl
  · intro hf
    split
    · rfl
    · next hc => exact absurd hf hc
  · intro hf
    split
    · next hc => exact absurd hc hf
    · rfl
  · intro h
    split
    · rfl
    · next hTIR =>
      rcases h with h | h
      · exact absurd h hTIR
      · simp only [fresnelDielectric] at h
        rw [if_neg hTIR] at h
        rw [if_pos h]
  · intro hTIR hf
    rw [if_neg hTIR]
    simp only [fresnelDielectric] at hf
    rw [if_neg hTIR] at hf
    rw [if_neg hf]
    rw [hperp]

/-- Helper: the z-axis test ray has direction `(0, 0, -1)` after
`Ray::new` normalisation. -/
theorem testRay_dir :
    (RayR.new (⟨0, 0, 0⟩ : V3 ℝ) ⟨0, 0, -1⟩).dir = ⟨0, 0, -1⟩ := by
  norm_num [RayR.new, R3.normalised, R3.mag, R3.dot, R3.sdiv]

/-- Helper: Fresnel reflectance at normal incidence from vacuum into
`ior = 3` is exactly `1/4`. -/
theorem fresnel_normal_incidence :
    fresnelDielectric 1 3 (⟨0, 0, 1⟩ : V3 ℝ) ⟨0, 0, 1⟩ = 1 / 4 := by
  simp only [fresnelDielectric, R3.dot]
  norm_num [Real.sqrt_one]

/-- Witness for C8: at normal incidence with `ior = 3` and sample `1/4`,
`SmoothDielectric::scatter` reflects (`1/4 ≥ 1/4`) while
`Refractive::scatter` refracts (`¬ 1/4 > 1/4`). -/
theorem dielectric_scatter_spec_witness :
    (smoothDielectricScatter 3
        ⟨1, ⟨0, 0⟩, ⟨0, 0, 0⟩, ⟨0, 0, 1⟩, true, 0, 0⟩
        (RayR.new ⟨0, 0, 0⟩ ⟨0, 0, -1⟩) (1 / 4)).1
      = specReflectRay ⟨1, ⟨0, 0⟩, ⟨0, 0, 0⟩, ⟨0, 0, 1⟩, true, 0, 0⟩
          (R3.neg (RayR.new ⟨0, 0, 0⟩ ⟨0, 0, -1⟩).dir)
    ∧ (refractiveScatter 3
        ⟨1, ⟨0, 0⟩, ⟨0, 0, 0⟩, ⟨0, 0, 1⟩, true, 0, 0⟩
        (RayR.new ⟨0, 0, 0⟩ ⟨0, 0, -1⟩) (1 / 4)).1
      = specRefractRay 1 3 ⟨1, ⟨0, 0⟩, ⟨0, 0, 0⟩, ⟨0, 0, 1⟩, true, 0, 0⟩
          (R3.neg (RayR.new ⟨0, 0, 0⟩ ⟨0, 0, -1⟩).dir) := by
  have hwo : R3.neg (RayR.new (⟨0, 0, 0⟩ : V3 ℝ) ⟨0, 0, -1⟩).dir
      = ⟨0, 0, 1⟩ := by
    rw [testRay_dir]
    norm_num [R3.neg]
  obtain ⟨h1, h2, h3, h4, h5, h6⟩ := dielectric_scatter_spec 3
    ⟨1, ⟨0, 0⟩, ⟨0, 0, 0⟩, ⟨0, 0, 1⟩, true, 0, 0⟩
    (RayR.new ⟨0, 0, 0⟩ ⟨0, 0, -1⟩) (1 / 4)
  constructor
  · apply h3
    show fresnelDielectric 1 3 _ _ ≥ _
    rw [hwo, fresnel_normal_incidence]
  · apply h6
    · show ¬ ((1 : ℝ) / 3) ^ 2
          * (1 - R3.dot (R3.neg (RayR.new ⟨0, 0, 0⟩ ⟨0, 0, -1⟩).dir)
              (⟨0, 0, 1⟩ : V3 ℝ) ^ 2) ≥ 1
      rw [hwo]
      norm_num [R3.dot]
    · show ¬ fresnelDielectric 1 3 _ _ > _
      rw [hwo, fresnel_normal_incidence]
      norm_num

/-- Counterexample for C8 as stated: at normal incidence with `ior = 3`
the Fresnel reflectance equals the drawn sample `1/4`, so the claim
("reflects exactly when reflectance ≥ sample") mandates reflection — the
reflected direction is `(0,0,1)` — yet `Refractive::scatter` uses the
strict comparison `r > rng.gen()` and refracts, producing direction
`(0,0,-1)`. -/
theorem dielectric_scatter_counterexample :
    fresnelDielectric 1 3 (⟨0, 0, 1⟩ : V3 ℝ) ⟨0, 0, 1⟩ ≥ (1 / 4 : ℝ)
      ∧ (refractiveScatter 3 ⟨1, ⟨0, 0⟩, ⟨0, 0, 0⟩, ⟨0, 0, 1⟩, true, 0, 0⟩
            (RayR.new ⟨0, 0, 0⟩ ⟨0, 0, -1⟩) (1 / 4)).1.dir = ⟨0, 0, -1⟩
      ∧ (specReflectRay ⟨1, ⟨0, 0⟩, ⟨0, 0, 0⟩, ⟨0, 0, 1⟩, true, 0, 0⟩
            (⟨0, 0, 1⟩ : V3 ℝ)).dir = ⟨0, 0, 1⟩
      ∧ (⟨0, 0, -1⟩ : V3 ℝ) ≠ ⟨0, 0, 1⟩ := by
  refine ⟨by rw [fresnel_normal_incidence], ?_, ?_, by
    intro h
    have := congrArg V3.z h
    norm_num at this⟩
  · simp only [refractiveScatter, testRay_dir]
    norm_num [R3.neg, R3.dot, R3.add, R3.sub, R3.smul, R3.magSq,
      RayR.new, R3.normalised, R3.mag, R3.sdiv, Real.sqrt_one, abs_one,
      V3.mk.injEq]
  · simp only [specReflectRay]
    norm_num [R3.reflected, R3.add, R3.sub, R3.smul, R3.dot,
      RayR.new, R3.normalised, R3.mag, R3.sdiv, Real.sqrt_one,
      V3.mk.injEq]

end Yapt
